import Mathlib

/-!
A verification development for the recursive-descent Puppet-language parser in
`parser/parser.go` (with the default expression factory of the same package).
The parser functions are embedded shallowly as a fuel-indexed interpreter over
an explicit parser state.  The lexer of the repository is not part of the
sources under study; the token stream and the few lexer primitives the parser
uses (`nextToken`, `Peek`, `skipWhite`, `setToken`, `setTokenValue`,
`tokenMap`, the `keywords` set) are modelled from the specification: a parse
input is the source text together with its already-lexed token list, each
token carrying its kind, value and byte span.
-/

namespace PuppetParser

/-- Token kinds of the lexer (the `TOKEN_*` constants referenced by
`parser.go`).  `TOKEN_END` is the exhaustion sentinel. -/
inductive TokenKind where
  | TOKEN_END
  | TOKEN_IDENTIFIER
  | TOKEN_TYPE_NAME
  | TOKEN_INTEGER
  | TOKEN_FLOAT
  | TOKEN_STRING
  | TOKEN_BOOLEAN
  | TOKEN_UNDEF
  | TOKEN_DEFAULT
  | TOKEN_VARIABLE
  | TOKEN_REGEXP
  | TOKEN_HEREDOC
  | TOKEN_CONCATENATED_STRING
  | TOKEN_RENDER_STRING
  | TOKEN_RENDER_EXPR
  | TOKEN_LC
  | TOKEN_RC
  | TOKEN_LB
  | TOKEN_RB
  | TOKEN_LISTSTART
  | TOKEN_LP
  | TOKEN_WSLP
  | TOKEN_RP
  | TOKEN_COMMA
  | TOKEN_COLON
  | TOKEN_SEMICOLON
  | TOKEN_FARROW
  | TOKEN_PARROW
  | TOKEN_DOT
  | TOKEN_QMARK
  | TOKEN_SELC
  | TOKEN_PIPE
  | TOKEN_PIPE_END
  | TOKEN_ASSIGN
  | TOKEN_ADD_ASSIGN
  | TOKEN_SUBTRACT_ASSIGN
  | TOKEN_ADD
  | TOKEN_SUBTRACT
  | TOKEN_MULTIPLY
  | TOKEN_DIVIDE
  | TOKEN_REMAINDER
  | TOKEN_LSHIFT
  | TOKEN_RSHIFT
  | TOKEN_EQUAL
  | TOKEN_NOT_EQUAL
  | TOKEN_LESS
  | TOKEN_LESS_EQUAL
  | TOKEN_GREATER
  | TOKEN_GREATER_EQUAL
  | TOKEN_MATCH
  | TOKEN_NOT_MATCH
  | TOKEN_AND
  | TOKEN_OR
  | TOKEN_NOT
  | TOKEN_IN
  | TOKEN_IN_EDGE
  | TOKEN_IN_EDGE_SUB
  | TOKEN_OUT_EDGE
  | TOKEN_OUT_EDGE_SUB
  | TOKEN_AT
  | TOKEN_ATAT
  | TOKEN_LCOLLECT
  | TOKEN_RCOLLECT
  | TOKEN_LLCOLLECT
  | TOKEN_RRCOLLECT
  | TOKEN_IF
  | TOKEN_ELSE
  | TOKEN_ELSIF
  | TOKEN_UNLESS
  | TOKEN_CASE
  | TOKEN_CLASS
  | TOKEN_TYPE
  | TOKEN_FUNCTION
  | TOKEN_PLAN
  | TOKEN_ACTOR
  | TOKEN_NODE
  | TOKEN_DEFINE
  | TOKEN_APPLICATION
  | TOKEN_SITE
  | TOKEN_PRODUCES
  | TOKEN_CONSUMES
  | TOKEN_INHERITS
  | TOKEN_ATTR
  | TOKEN_PRIVATE
deriving DecidableEq

/-- Resource forms (`REGULAR`, `VIRTUAL`, `EXPORTED`). -/
inductive ResourceForm where
  | REGULAR
  | VIRTUAL
  | EXPORTED
deriving DecidableEq

mutual

/-- A positioned AST node: a node kind together with its byte offset and
byte length (the `Positioned` embedded struct of every AST node). -/
inductive PExpr where
  | mk (kind : ExprKind) (off : Nat) (len : Nat)

/-- The AST node variants constructed by the default expression factory.
Constructor argument order follows the corresponding Go struct literals. -/
inductive ExprKind where
  | LiteralUndef
  | LiteralDefault
  | LiteralBoolean (value : Bool)
  | LiteralInteger (radix : Nat) (value : Int)
  | LiteralFloat (value : Rat)
  | LiteralString (value : String)
  | RegexpExpression (value : String)
  | LiteralList (elements : List PExpr)
  | CommaSeparatedList (elements : List PExpr)
  | LiteralHash (entries : List PExpr)
  | ConcatenatedString (segments : List PExpr)
  | HeredocExpression (tag : String) (text : PExpr)
  | QualifiedName (name : String)
  | QualifiedReference (name : String) (downcasedName : String)
  | ReservedWord (word : String) (future : Bool)
  | UnaryMinusExpression (expr : PExpr)
  | NotExpression (expr : PExpr)
  | UnfoldExpression (expr : PExpr)
  | ParenthesizedExpression (expr : PExpr)
  | TextExpression (expr : PExpr)
  | VariableExpression (expr : PExpr)
  | RenderExpression (expr : PExpr)
  | RenderStringExpression (text : String)
  | AndExpression (lhs rhs : PExpr)
  | OrExpression (lhs rhs : PExpr)
  | InExpression (lhs rhs : PExpr)
  | ComparisonExpression (op : String) (lhs rhs : PExpr)
  | ArithmeticExpression (op : String) (lhs rhs : PExpr)
  | MatchExpression (op : String) (lhs rhs : PExpr)
  | AssignmentExpression (op : String) (lhs rhs : PExpr)
  | RelationshipExpression (op : String) (lhs rhs : PExpr)
  | NamedAccessExpression (lhs rhs : PExpr)
  | AccessExpression (operand : PExpr) (keys : List PExpr)
  | BlockExpression (statements : List PExpr)
  | KeyedEntry (key value : PExpr)
  | AttributeOperation (op : String) (name : String) (value : PExpr)
  | AttributesOperation (value : PExpr)
  | SelectorExpression (lhs : PExpr) (selectors : List PExpr)
  | SelectorEntry (key value : PExpr)
  | CaseExpression (test : PExpr) (options : List PExpr)
  | CaseOption (values : List PExpr) (thenPart : PExpr)
  | IfExpression (test thenPart elsePart : PExpr)
  | UnlessExpression (test thenPart elsePart : PExpr)
  | Nop
  | CallNamedFunctionExpression (rvalRequired : Bool) (functor : PExpr)
      (args : List PExpr) (lambda : Option PExpr)
  | CallMethodExpression (rvalRequired : Bool) (functor : PExpr)
      (args : List PExpr) (lambda : Option PExpr)
  | LambdaExpression (parameters : List PExpr) (body : PExpr) (returnType : Option PExpr)
  | EppExpression (parametersSpecified : Bool) (body : PExpr)
  | ResourceExpression (form : ResourceForm) (typeName : PExpr) (bodies : List PExpr)
  | ResourceBody (title : PExpr) (operations : List PExpr)
  | ResourceDefaultsExpression (form : ResourceForm) (typeRef : PExpr) (operations : List PExpr)
  | ResourceOverrideExpression (form : ResourceForm) (resources : PExpr) (operations : List PExpr)
  | CollectExpression (resourceType : PExpr) (query : PExpr) (operations : List PExpr)
  | VirtualQuery (query : PExpr)
  | ExportedQuery (query : PExpr)
  | HostClassDefinition (name : String) (parameters : List PExpr) (parent : String) (body : PExpr)
  | ResourceTypeDefinition (name : String) (parameters : List PExpr) (body : PExpr)
  | Application (name : String) (parameters : List PExpr) (body : PExpr)
  | NodeDefinition (parent : Option PExpr) (hostMatches : List PExpr) (statements : PExpr)
  | SiteDefinition (statements : PExpr)
  | FunctionDefinition (name : String) (parameters : List PExpr) (body : PExpr)
      (returnType : Option PExpr)
  | PlanDefinition (name : String) (parameters : List PExpr) (body : PExpr)
      (returnType : Option PExpr) (actor : Bool)
  | TypeAlias (name : String) (typeExpr : PExpr)
  | TypeDefinition (name : String) (parent : String) (body : PExpr)
  | TypeMapping (typeExpr : PExpr) (mapping : PExpr)
  | CapabilityMapping (kind : String) (capability : String) (component : PExpr)
      (mappings : List PExpr)
  | Parameter (name : String) (value : Option PExpr) (typeExpr : Option PExpr)
      (capturesRest : Bool)
  | Program (body : PExpr) (definitions : List PExpr)
  | ActionDefinition (name : String) (typeName : String) (style : String)
      (parameters : List PExpr) (body : PExpr) (returnType : Option PExpr)
  | MultiActionDefinition (name : String) (iterParams : List PExpr) (iterVars : List PExpr)
      (action : PExpr)

end

/-- `ByteOffset()` of a node. -/
def PExpr.byteOffset : PExpr → Nat
  | .mk _ o _ => o

/-- `ByteLength()` of a node. -/
def PExpr.byteLength : PExpr → Nat
  | .mk _ _ l => l

/-- The node kind of a positioned node. -/
def PExpr.getKind : PExpr → ExprKind
  | .mk k _ _ => k

/-- `updateOffsetAndLength` — the narrow position mutation used after a unary
prefix. -/
def PExpr.updateOffsetAndLength : PExpr → Nat → Nat → PExpr
  | .mk k _ _, o, l => .mk k o l

/-- Token values (the dynamic `tokenValue interface{}` of the lexer).  Integer
values carry their radix; float literals are modelled as exact rationals.
Heredoc and concatenated-string tokens carry a pre-parsed expression. -/
inductive TVal where
  | none
  | int (value : Int) (radix : Nat)
  | float (value : Rat)
  | str (value : String)
  | bool (value : Bool)
  | expr (value : PExpr)

/-- A lexed token: kind, value, and its byte span `[start, stop)` in the
source. -/
structure Tok where
  kind : TokenKind
  value : TVal
  start : Nat
  stop : Nat

/-- Issue codes raised by the parser (`issue.Code` values used in
`parser.go`). -/
inductive IssueCode where
  | LEX_UNEXPECTED_TOKEN
  | PARSE_EXPECTED_TOKEN
  | PARSE_EXPECTED_ONE_OF_TOKENS
  | PARSE_EXPECTED_FARROW_AFTER_KEY
  | PARSE_EXPECTED_TITLE
  | PARSE_EXPECTED_ATTRIBUTE_NAME
  | PARSE_INVALID_ATTRIBUTE
  | PARSE_RESOURCE_WITHOUT_TITLE
  | PARSE_EXTRANEOUS_COMMA
  | PARSE_ELSIF_IN_UNLESS
  | PARSE_EXPECTED_TYPE_NAME
  | PARSE_EXPECTED_TYPE_NAME_AFTER_TYPE
  | PARSE_INHERITS_MUST_BE_TYPE_NAME
  | PARSE_EXPECTED_NAME_AFTER_FUNCTION
  | PARSE_EXPECTED_NAME_AFTER_PLAN
  | PARSE_EXPECTED_HOSTNAME
  | PARSE_EXPECTED_VARIABLE
  | PARSE_EXPECTED_CLASS_NAME
  | PARSE_QUOTED_NOT_VALID_NAME
  | PARSE_CLASS_NOT_VALID_HERE
  | PARSE_ILLEGAL_EPP_PARAMETERS
  | PARSE_EXPECTED_ACTION_NAME
  | PARSE_EXPECTED_NAME_OR_NUMBER_AFTER_DOT
deriving DecidableEq

/-- A Go panic value as seen by the `recover` in `parseTopExpression`:
`reported` models `issue.Reported`, `parseError` models `*ParseError`; `other`
models any other runtime panic (failed type assertions, plain-string panics),
and `fuel` marks exhaustion of the interpreter's fuel (no source-program
counterpart; it only limits how deep the model evaluates). -/
inductive PanicVal where
  | reported (code : IssueCode)
  | parseError (code : IssueCode)
  | other (msg : String)
  | fuel
deriving DecidableEq

/-- Whether a panic value is a structured issue (caught by the `recover` in
`parseTopExpression`). -/
def PanicVal.isStructured : PanicVal → Bool
  | .reported _ => true
  | .parseError _ => true
  | _ => false

/-- The parser/lexer fused state (the `context` receiver): the source text
(needed for `Peek`), the full lexed token list, the current-token fields, the
reader position, the collected definitions and the name stack. -/
structure PState where
  src : List Char
  toks : List Tok
  currentToken : TokenKind
  tokenValue : TVal
  tokenStartPos : Nat
  radix : Nat
  pos : Nat
  definitions : List PExpr
  nameStack : List String

/-- The parser monad: state passing with Go-panic-style exceptions. -/
abbrev PM (α : Type) := StateT PState (Except PanicVal) α

/-- Modelled from the spec: `findTok` locates the first token whose start is
at or after the reader position; re-lexing after `SetPos` reproduces the
deterministic token stream, so it is modelled by searching the fixed token
list. -/
def findTok (toks : List Tok) (p : Nat) : Option Tok :=
  toks.find? (fun t => decide (p ≤ t.start))

/-- Modelled from the spec: the state change of `nextToken` — scan the next
token from the current reader position; at exhaustion the `TOKEN_END`
sentinel positioned at the end of the source. -/
def nextTokState (s : PState) : PState :=
  match findTok s.toks s.pos with
  | some t =>
      { s with currentToken := t.kind, tokenValue := t.value,
               tokenStartPos := t.start, pos := t.stop,
               radix := match t.value with | .int _ r => r | _ => 10 }
  | none =>
      { s with currentToken := .TOKEN_END, tokenValue := .none,
               tokenStartPos := s.src.length, pos := s.src.length, radix := 10 }

/-- Modelled from the spec: `nextToken`.  The lexer is not under `src/`. -/
def nextToken : PM Unit := modify nextTokState

/-- `Pos()` — the current reader position. -/
def Pos : PM Nat := do
  pure (← get).pos

/-- `SetPos` — reposition the reader. -/
def SetPos (p : Nat) : PM Unit :=
  modify (fun s => { s with pos := p })

/-- Modelled from the spec: `Peek` returns the rune at the current reader
position without advancing (the null rune at end of source). -/
def Peek : PM Char := do
  let s ← get
  pure (s.src.getD s.pos (Char.ofNat 0))

/-- `isDecimalDigit`. -/
def isDecimalDigit (c : Char) : Bool := c.isDigit

/-- Modelled from the spec: `setToken` replaces the current token kind (used
to push back a `{`); the token value is cleared. -/
def setToken (k : TokenKind) : PM Unit :=
  modify (fun s => { s with currentToken := k, tokenValue := .none })

/-- Modelled from the spec: `setTokenValue` replaces the current token kind
and value (used for in-place negation of numeric literals). -/
def setTokenValue (k : TokenKind) (v : TVal) : PM Unit :=
  modify (fun s => { s with currentToken := k, tokenValue := v })

/-- Modelled from the spec: the start position returned by
`skipWhite` — the first significant position at or after the reader
position, i.e. the start of the next token (end of source when none). -/
def skipWhiteStart (s : PState) : Nat :=
  match findTok s.toks s.pos with
  | some t => t.start
  | none => s.src.length

/-- Modelled from the spec: the `tokenMap` display strings of the token
kinds whose string form the parser consumes as data (keywords used as names,
operator strings). -/
def tokenMap : TokenKind → String
  | .TOKEN_END => "EOF"
  | .TOKEN_IDENTIFIER => "identifier"
  | .TOKEN_TYPE_NAME => "type name"
  | .TOKEN_INTEGER => "integer literal"
  | .TOKEN_FLOAT => "float literal"
  | .TOKEN_STRING => "string literal"
  | .TOKEN_BOOLEAN => "boolean literal"
  | .TOKEN_UNDEF => "undef"
  | .TOKEN_DEFAULT => "default"
  | .TOKEN_VARIABLE => "variable"
  | .TOKEN_REGEXP => "regexp"
  | .TOKEN_HEREDOC => "heredoc"
  | .TOKEN_CONCATENATED_STRING => "dq string"
  | .TOKEN_RENDER_STRING => "render string"
  | .TOKEN_RENDER_EXPR => "<%="
  | .TOKEN_LC => "\x7b"
  | .TOKEN_RC => "\x7d"
  | .TOKEN_LB => "["
  | .TOKEN_RB => "]"
  | .TOKEN_LISTSTART => "["
  | .TOKEN_LP => "("
  | .TOKEN_WSLP => "("
  | .TOKEN_RP => ")"
  | .TOKEN_COMMA => ","
  | .TOKEN_COLON => ":"
  | .TOKEN_SEMICOLON => ";"
  | .TOKEN_FARROW => "=>"
  | .TOKEN_PARROW => "+>"
  | .TOKEN_DOT => "."
  | .TOKEN_QMARK => "?"
  | .TOKEN_SELC => "?\x7b"
  | .TOKEN_PIPE => "|"
  | .TOKEN_PIPE_END => "|"
  | .TOKEN_ASSIGN => "="
  | .TOKEN_ADD_ASSIGN => "+="
  | .TOKEN_SUBTRACT_ASSIGN => "-="
  | .TOKEN_ADD => "+"
  | .TOKEN_SUBTRACT => "-"
  | .TOKEN_MULTIPLY => "*"
  | .TOKEN_DIVIDE => "/"
  | .TOKEN_REMAINDER => "%"
  | .TOKEN_LSHIFT => "<<"
  | .TOKEN_RSHIFT => ">>"
  | .TOKEN_EQUAL => "=="
  | .TOKEN_NOT_EQUAL => "!="
  | .TOKEN_LESS => "<"
  | .TOKEN_LESS_EQUAL => "<="
  | .TOKEN_GREATER => ">"
  | .TOKEN_GREATER_EQUAL => ">="
  | .TOKEN_MATCH => "=~"
  | .TOKEN_NOT_MATCH => "!~"
  | .TOKEN_AND => "and"
  | .TOKEN_OR => "or"
  | .TOKEN_NOT => "!"
  | .TOKEN_IN => "in"
  | .TOKEN_IN_EDGE => "->"
  | .TOKEN_IN_EDGE_SUB => "~>"
  | .TOKEN_OUT_EDGE => "<-"
  | .TOKEN_OUT_EDGE_SUB => "<~"
  | .TOKEN_AT => "@"
  | .TOKEN_ATAT => "@@"
  | .TOKEN_LCOLLECT => "<|"
  | .TOKEN_RCOLLECT => "|>"
  | .TOKEN_LLCOLLECT => "<<|"
  | .TOKEN_RRCOLLECT => "|>>"
  | .TOKEN_IF => "if"
  | .TOKEN_ELSE => "else"
  | .TOKEN_ELSIF => "elsif"
  | .TOKEN_UNLESS => "unless"
  | .TOKEN_CASE => "case"
  | .TOKEN_CLASS => "class"
  | .TOKEN_TYPE => "type"
  | .TOKEN_FUNCTION => "function"
  | .TOKEN_PLAN => "plan"
  | .TOKEN_ACTOR => "actor"
  | .TOKEN_NODE => "node"
  | .TOKEN_DEFINE => "define"
  | .TOKEN_APPLICATION => "application"
  | .TOKEN_SITE => "site"
  | .TOKEN_PRODUCES => "produces"
  | .TOKEN_CONSUMES => "consumes"
  | .TOKEN_INHERITS => "inherits"
  | .TOKEN_ATTR => "attr"
  | .TOKEN_PRIVATE => "private"

/-- Modelled from the spec: the lexer's `keywords` set, queried by
`keyword()` to let keywords act as attribute names. -/
def keywords (s : String) : Bool :=
  match s with
  | "and" | "application" | "attr" | "case" | "class" | "consumes" | "default"
  | "define" | "else" | "elsif" | "false" | "function" | "if" | "in"
  | "inherits" | "node" | "or" | "plan" | "actor" | "private" | "produces"
  | "site" | "true" | "type" | "undef" | "unless" => true
  | _ => false

/-- The fixed set of names treated as top-level statement calls
(`statementCalls` in `parser.go`). -/
def statementCalls (s : String) : Bool :=
  match s with
  | "require" | "realize" | "include" | "contain" | "tag"
  | "debug" | "info" | "notice" | "warning" | "err"
  | "fail" | "import" | "break" | "next" | "return" => true
  | _ => false

/-! ## The default expression factory (`defaultExpressionFactory`)
One constructor per AST variant; the `locator` argument is dropped (a single
locator per parse).  Field order follows the Go struct literals. -/

namespace F

def Access (operand : PExpr) (keys : List PExpr) (off len : Nat) : PExpr :=
  .mk (.AccessExpression operand keys) off len

def And (lhs rhs : PExpr) (off len : Nat) : PExpr :=
  .mk (.AndExpression lhs rhs) off len

def Application (name : String) (params : List PExpr) (body : PExpr) (off len : Nat) : PExpr :=
  .mk (.Application name params body) off len

def Arithmetic (op : String) (lhs rhs : PExpr) (off len : Nat) : PExpr :=
  .mk (.ArithmeticExpression op lhs rhs) off len

def Array (expressions : List PExpr) (off len : Nat) : PExpr :=
  .mk (.LiteralList expressions) off len

def Assignment (op : String) (lhs rhs : PExpr) (off len : Nat) : PExpr :=
  .mk (.AssignmentExpression op lhs rhs) off len

def AttributeOp (op : String) (name : String) (value : PExpr) (off len : Nat) : PExpr :=
  .mk (.AttributeOperation op name value) off len

def AttributesOp (valueExpr : PExpr) (off len : Nat) : PExpr :=
  .mk (.AttributesOperation valueExpr) off len

def Block (expressions : List PExpr) (off len : Nat) : PExpr :=
  .mk (.BlockExpression expressions) off len

def Boolean (value : Bool) (off len : Nat) : PExpr :=
  .mk (.LiteralBoolean value) off len

def CallMethod (functorExpr : PExpr) (args : List PExpr) (lambda : Option PExpr)
    (off len : Nat) : PExpr :=
  .mk (.CallMethodExpression true functorExpr args lambda) off len

def CallNamed (functorExpr : PExpr) (rvalRequired : Bool) (args : List PExpr)
    (lambda : Option PExpr) (off len : Nat) : PExpr :=
  .mk (.CallNamedFunctionExpression rvalRequired functorExpr args lambda) off len

def CapabilityMapping (kind : String) (component : PExpr) (capability : String)
    (mappings : List PExpr) (off len : Nat) : PExpr :=
  .mk (.CapabilityMapping kind capability component mappings) off len

def Case (test : PExpr) (options : List PExpr) (off len : Nat) : PExpr :=
  .mk (.CaseExpression test options) off len

def Class (name : String) (parameters : List PExpr) (parent : String) (body : PExpr)
    (off len : Nat) : PExpr :=
  .mk (.HostClassDefinition name parameters parent body) off len

def Collect (resourceType : PExpr) (query : PExpr) (operations : List PExpr)
    (off len : Nat) : PExpr :=
  .mk (.CollectExpression resourceType query operations) off len

def Comparison (op : String) (lhs rhs : PExpr) (off len : Nat) : PExpr :=
  .mk (.ComparisonExpression op lhs rhs) off len

def ConcatenatedString (segments : List PExpr) (off len : Nat) : PExpr :=
  .mk (.ConcatenatedString segments) off len

def Default (off len : Nat) : PExpr :=
  .mk .LiteralDefault off len

def Definition (name : String) (params : List PExpr) (body : PExpr) (off len : Nat) : PExpr :=
  .mk (.ResourceTypeDefinition name params body) off len

def ExportedQuery (queryExpr : PExpr) (off len : Nat) : PExpr :=
  .mk (.ExportedQuery queryExpr) off len

def Float (value : Rat) (off len : Nat) : PExpr :=
  .mk (.LiteralFloat value) off len

def Function (name : String) (parameters : List PExpr) (body : PExpr)
    (returnType : Option PExpr) (off len : Nat) : PExpr :=
  .mk (.FunctionDefinition name parameters body returnType) off len

def Heredoc (text : PExpr) (tag : String) (off len : Nat) : PExpr :=
  .mk (.HeredocExpression tag text) off len

def Hash (entries : List PExpr) (off len : Nat) : PExpr :=
  .mk (.LiteralHash entries) off len

def If (test thenExpr elseExpr : PExpr) (off len : Nat) : PExpr :=
  .mk (.IfExpression test thenExpr elseExpr) off len

def In (lhs rhs : PExpr) (off len : Nat) : PExpr :=
  .mk (.InExpression lhs rhs) off len

def Integer (value : Int) (radix : Nat) (off len : Nat) : PExpr :=
  .mk (.LiteralInteger radix value) off len

def KeyedEntry (key value : PExpr) (off len : Nat) : PExpr :=
  .mk (.KeyedEntry key value) off len

def Lambda (parameters : List PExpr) (body : PExpr) (returnType : Option PExpr)
    (off len : Nat) : PExpr :=
  .mk (.LambdaExpression parameters body returnType) off len

/-- `EppExpression` of the default factory wraps the body in a
`LambdaExpression`; `parametersSpecified` is `params != nil` in Go (every
call site passes a non-nil slice). -/
def EppExpression (params : List PExpr) (body : PExpr) (off len : Nat) : PExpr :=
  Lambda params (.mk (.EppExpression true body) off len) Option.none off len

def Match (op : String) (lhs rhs : PExpr) (off len : Nat) : PExpr :=
  .mk (.MatchExpression op lhs rhs) off len

def NamedAccess (lhs rhs : PExpr) (off len : Nat) : PExpr :=
  .mk (.NamedAccessExpression lhs rhs) off len

def Negate (expr : PExpr) (off len : Nat) : PExpr :=
  .mk (.UnaryMinusExpression expr) off len

def Node (hostMatches : List PExpr) (parent : Option PExpr) (statements : PExpr)
    (off len : Nat) : PExpr :=
  .mk (.NodeDefinition parent hostMatches statements) off len

def Nop (off len : Nat) : PExpr :=
  .mk .Nop off len

def Not (expr : PExpr) (off len : Nat) : PExpr :=
  .mk (.NotExpression expr) off len

def Or (lhs rhs : PExpr) (off len : Nat) : PExpr :=
  .mk (.OrExpression lhs rhs) off len

def Parameter (name : String) (expr : Option PExpr) (typeExpr : Option PExpr)
    (capturesRest : Bool) (off len : Nat) : PExpr :=
  .mk (.Parameter name expr typeExpr capturesRest) off len

def Parenthesized (expr : PExpr) (off len : Nat) : PExpr :=
  .mk (.ParenthesizedExpression expr) off len

def Plan (name : String) (parameters : List PExpr) (body : PExpr)
    (returnType : Option PExpr) (actor : Bool) (off len : Nat) : PExpr :=
  .mk (.PlanDefinition name parameters body returnType actor) off len

def Program (body : PExpr) (definitions : List PExpr) (off len : Nat) : PExpr :=
  .mk (.Program body definitions) off len

def QualifiedName (name : String) (off len : Nat) : PExpr :=
  .mk (.QualifiedName name) off len

def QualifiedReference (name : String) (off len : Nat) : PExpr :=
  .mk (.QualifiedReference name name.toLower) off len

def Regexp (value : String) (off len : Nat) : PExpr :=
  .mk (.RegexpExpression value) off len

def RelOp (op : String) (lhs rhs : PExpr) (off len : Nat) : PExpr :=
  .mk (.RelationshipExpression op lhs rhs) off len

def RenderExpression (expr : PExpr) (off len : Nat) : PExpr :=
  .mk (.RenderExpression expr) off len

def RenderString (text : String) (off len : Nat) : PExpr :=
  .mk (.RenderStringExpression text) off len

def ReservedWord (value : String) (future : Bool) (off len : Nat) : PExpr :=
  .mk (.ReservedWord value future) off len

def Resource (form : ResourceForm) (typeName : PExpr) (bodies : List PExpr)
    (off len : Nat) : PExpr :=
  .mk (.ResourceExpression form typeName bodies) off len

def ResourceBody (title : PExpr) (operations : List PExpr) (off len : Nat) : PExpr :=
  .mk (.ResourceBody title operations) off len

def ResourceDefaults (form : ResourceForm) (typeRef : PExpr) (operations : List PExpr)
    (off len : Nat) : PExpr :=
  .mk (.ResourceDefaultsExpression form typeRef operations) off len

def ResourceOverride (form : ResourceForm) (resources : PExpr) (operations : List PExpr)
    (off len : Nat) : PExpr :=
  .mk (.ResourceOverrideExpression form resources operations) off len

def Select (lhs : PExpr) (entries : List PExpr) (off len : Nat) : PExpr :=
  .mk (.SelectorExpression lhs entries) off len

def Selector (key value : PExpr) (off len : Nat) : PExpr :=
  .mk (.SelectorEntry key value) off len

def Site (statements : PExpr) (off len : Nat) : PExpr :=
  .mk (.SiteDefinition statements) off len

def Text (expr : PExpr) (off len : Nat) : PExpr :=
  .mk (.TextExpression expr) off len

def TypeAlias (name : String) (typeExpr : PExpr) (off len : Nat) : PExpr :=
  .mk (.TypeAlias name typeExpr) off len

def TypeDefinition (name : String) (parent : String) (body : PExpr) (off len : Nat) : PExpr :=
  .mk (.TypeDefinition name parent body) off len

def TypeMapping (typeExpr : PExpr) (mapping : PExpr) (off len : Nat) : PExpr :=
  .mk (.TypeMapping typeExpr mapping) off len

def Undef (off len : Nat) : PExpr :=
  .mk .LiteralUndef off len

def Unfold (expr : PExpr) (off len : Nat) : PExpr :=
  .mk (.UnfoldExpression expr) off len

def Unless (test thenExpr elseExpr : PExpr) (off len : Nat) : PExpr :=
  .mk (.UnlessExpression test thenExpr elseExpr) off len

def Variable (expr : PExpr) (off len : Nat) : PExpr :=
  .mk (.VariableExpression expr) off len

def VirtualQuery (queryExpr : PExpr) (off len : Nat) : PExpr :=
  .mk (.VirtualQuery queryExpr) off len

def When (values : List PExpr) (thenExpr : PExpr) (off len : Nat) : PExpr :=
  .mk (.CaseOption values thenExpr) off len

/-- Modelled from the spec: factory constructor `Action`, referenced by
`styledActionDefinition` but not declared in the factory interface (an
incomplete feature noted by the spec). -/
def Action (name : String) (typeName : String) (style : String) (parameterList : List PExpr)
    (block : PExpr) (returnType : Option PExpr) (off len : Nat) : PExpr :=
  .mk (.ActionDefinition name typeName style parameterList block returnType) off len

/-- Modelled from the spec: factory constructor `MultiAction`, referenced by
`multiActionDefinition` but not declared in the factory interface. -/
def MultiAction (name : String) (iterParams : List PExpr) (iterVars : List PExpr)
    (action : PExpr) (off len : Nat) : PExpr :=
  .mk (.MultiActionDefinition name iterParams iterVars action) off len

end F

/-- The body of the factory constructor for string literals. -/
def mkLiteralString (value : String) (off len : Nat) : PExpr :=
  .mk (.LiteralString value) off len

namespace F

/-- The factory constructor `String`. -/
def String := mkLiteralString

end F

/-! ## Pure helpers of the parser -/

/-- Whether a node is a `*QualifiedName` naming a statement call (the test of
`transformCalls`). -/
def isStatementCallName (e : PExpr) : Bool :=
  match e.getKind with
  | .QualifiedName n => statementCalls n
  | _ => false

/-- Whether a node is a `*commaSeparatedList`. -/
def isCommaSeparatedList (e : PExpr) : Bool :=
  match e.getKind with
  | .CommaSeparatedList _ => true
  | _ => false

/-- Whether a node is a `*KeyedEntry`. -/
def isKeyedEntry (e : PExpr) : Bool :=
  match e.getKind with
  | .KeyedEntry _ _ => true
  | _ => false

/-- Whether a node is a `*NamedAccessExpression`. -/
def isNamedAccess (e : PExpr) : Bool :=
  match e.getKind with
  | .NamedAccessExpression _ _ => true
  | _ => false

/-- Whether a node is a `*Program`. -/
def isProgram (e : PExpr) : Bool :=
  match e.getKind with
  | .Program _ _ => true
  | _ => false

/-- The `rvalRequired` flag of a named-function call (`true` for any other
node, the flag of method calls included, matching the Go field default of the
abstract call). -/
def rvalRequiredOf (e : PExpr) : Bool :=
  match e.getKind with
  | .CallNamedFunctionExpression rv _ _ _ => rv
  | _ => true

/-- The in-place mutation `cnFunc.rvalRequired = b` on a
`*CallNamedFunctionExpression` (identity on any other node). -/
def setRvalRequired (b : Bool) (e : PExpr) : PExpr :=
  match e with
  | .mk (.CallNamedFunctionExpression _ f args lam) o l =>
      .mk (.CallNamedFunctionExpression b f args lam) o l
  | e => e

/-- Modelled from the spec: which AST variants implement the `Definition`
interface (the node categories the spec lists as registrable definitions;
the AST type declarations are not under `src/`). -/
def isDefinition (e : PExpr) : Bool :=
  match e.getKind with
  | .HostClassDefinition _ _ _ _ => true
  | .ResourceTypeDefinition _ _ _ => true
  | .Application _ _ _ => true
  | .NodeDefinition _ _ _ => true
  | .SiteDefinition _ => true
  | .FunctionDefinition _ _ _ _ => true
  | .PlanDefinition _ _ _ _ _ => true
  | .TypeAlias _ _ => true
  | .TypeDefinition _ _ _ => true
  | .TypeMapping _ _ => true
  | .CapabilityMapping _ _ _ _ => true
  | .ActionDefinition _ _ _ _ _ _ => true
  | .MultiActionDefinition _ _ _ _ => true
  | _ => false

/-- The merged statement call built inside `transformCalls` for a
statement-call name `memo` followed by argument statement `expr`: the
arguments are the elements when `expr` is a `commaSeparatedList` and
otherwise `expr` itself (whose `rvalRequired` flag is set when it is a named
call, mirroring the aliasing of the Go slice). -/
def mergedStatementCall (memo expr : PExpr) : PExpr :=
  let args : List PExpr :=
    match expr.getKind with
    | .CommaSeparatedList els => els
    | _ => [setRvalRequired true expr]
  F.CallNamed memo false args Option.none memo.byteOffset
    ((expr.byteOffset + expr.byteLength) - memo.byteOffset)

/-- The pairwise scan of `transformCalls` (its `for` loop over `memo`/`idx`):
returns the transformed statements and whether the loop returned early
because the final two statements were merged (`idx == top` after a merge),
in which case the extraneous-comma check is skipped. -/
def transformCallsScan (memo : PExpr) : List PExpr → (List PExpr × Bool)
  | [] => ([setRvalRequired false memo], false)
  | expr :: rest =>
    if isStatementCallName memo then
      let cn := mergedStatementCall memo expr
      match rest with
      | [] => ([cn], true)
      | m2 :: rest2 =>
          let r := transformCallsScan m2 rest2
          (cn :: r.1, r.2)
    else
      let r := transformCallsScan expr rest
      (setRvalRequired false memo :: r.1, r.2)

/-- `transformCalls`: merge statement-call names with their following
statement and flag remaining top-level named calls as not requiring an
rvalue; a `commaSeparatedList` remaining in the result raises
`PARSE_EXTRANEOUS_COMMA` — except on the early return taken when the block
ends with a merge.  The `start` parameter is unused, as in the source. -/
def transformCalls (exprs : List PExpr) (start : Nat) : Except PanicVal (List PExpr) :=
  match exprs with
  | [] => .ok exprs
  | memo :: rest =>
    match transformCallsScan memo rest with
    | (result, true) => .ok result
    | (result, false) =>
        if result.any isCommaSeparatedList then
          .error (.reported .PARSE_EXTRANEOUS_COMMA)
        else
          .ok result

/-- `resourceShape`: classify the primary expression preceding `{`.
`QualifiedReference.String()` is modelled as the name as written (the AST
declarations are not under `src/`; the spec requires `Resource[X]` to be
recognized). -/
def resourceShape (expr : PExpr) : String :=
  match expr.getKind with
  | .QualifiedName _ => "resource"
  | .QualifiedReference _ _ => "defaults"
  | .AccessExpression operand keys =>
      (match operand.getKind with
       | .QualifiedReference qnName _ =>
           if qnName = "Resource" ∧ keys.length = 1 then "defaults" else "override"
       | _ => "override")
  | _ => "error"

/-- `newHashWithoutBraces`: an implicit literal hash spanning its first to
last entry (callers guarantee a non-empty entry list). -/
def newHashWithoutBraces (entries : List PExpr) : PExpr :=
  match entries with
  | [] => F.Hash [] 0 0
  | e0 :: _ =>
      let lastE := entries.getLast?.getD e0
      F.Hash entries e0.byteOffset ((lastE.byteOffset + lastE.byteLength) - e0.byteOffset)

/-- The collector loop of `processHashEntries`. -/
def processHashEntriesAux (collector : List PExpr) : List PExpr → List PExpr
  | [] =>
      (match collector with
       | [] => []
       | _ => [newHashWithoutBraces collector])
  | e :: rest =>
      match e.getKind with
      | .KeyedEntry _ _ => processHashEntriesAux (collector ++ [e]) rest
      | _ =>
          (match collector with
           | [] => e :: processHashEntriesAux [] rest
           | _ => newHashWithoutBraces collector :: e :: processHashEntriesAux [] rest)

/-- `processHashEntries`: group adjacent keyed entries into implicit hashes. -/
def processHashEntries (exprs : List PExpr) : List PExpr :=
  processHashEntriesAux [] exprs

/-- `joinHashEntries`: a no-op unless some element is a keyed entry. -/
def joinHashEntries (exprs : List PExpr) : List PExpr :=
  if exprs.any isKeyedEntry then processHashEntries exprs else exprs

/-- `convertLhsToCall`: rewrite a named-access chain into nested method
calls. -/
def convertLhsToCall (ne : PExpr) (args : List PExpr) (lambda : Option PExpr)
    (start len : Nat) : PExpr :=
  match ne with
  | .mk (.NamedAccessExpression lhs rhs) off elen =>
      (match lhs with
       | .mk (.NamedAccessExpression _ _) _ _ =>
           let ne2 := F.NamedAccess
             (convertLhsToCall lhs [] Option.none lhs.byteOffset lhs.byteLength)
             rhs off elen
           F.CallMethod ne2 args lambda start len
       | _ => F.CallMethod (.mk (.NamedAccessExpression lhs rhs) off elen) args lambda start len)
  | ne => F.CallMethod ne args lambda start len

/-! ## Non-recursive monadic helpers of the parser -/

/-- `tokenString()`: the string form of the current token — its string value,
the `tokenMap` display string when the value is nil, and a plain (unrecovered)
panic for any other value. -/
def tokenString : PM String := do
  let s ← get
  match s.tokenValue with
  | .none => pure (tokenMap s.currentToken)
  | .str v => pure v
  | _ => throw (.other "token has no string representation")

/-- `assertToken`: fail with `PARSE_EXPECTED_TOKEN` (rewinding to the token
start) unless the current token has the given kind. -/
def assertToken (token : TokenKind) : PM Unit := do
  let s ← get
  if s.currentToken = token then pure ()
  else do
    set { s with pos := s.tokenStartPos }
    throw (.reported .PARSE_EXPECTED_TOKEN)

/-- `keyword()`: the current token's display string when it is a non-boolean
keyword. -/
def keywordOf (s : PState) : Option String :=
  if s.currentToken ≠ .TOKEN_BOOLEAN ∧ keywords (tokenMap s.currentToken) then
    some (tokenMap s.currentToken)
  else
    Option.none

/-- `identifier()`: an identifier or keyword usable as a name, with a success
flag; on failure the reader is rewound to the token start. -/
def identifier : PM (String × Bool) := do
  let s ← get
  match s.currentToken with
  | .TOKEN_IDENTIFIER => do
      let name ← tokenString
      nextToken
      pure (name, true)
  | _ =>
      match keywordOf s with
      | some word => do
          nextToken
          pure (word, true)
      | Option.none => do
          set { s with pos := s.tokenStartPos }
          pure ("", false)

/-- `attributeName()`. -/
def attributeName : PM String := do
  let (name, ok) ← identifier
  if ok then pure name else throw (.reported .PARSE_EXPECTED_ATTRIBUTE_NAME)

/-- `attributeNameExpression()`. -/
def attributeNameExpression : PM PExpr := do
  let start := (← get).tokenStartPos
  let name ← attributeName
  let p ← Pos
  pure (F.QualifiedName name start (p - start))

/-- `actionName()`. -/
def actionName : PM String := do
  let (name, ok) ← identifier
  if ok then pure name else throw (.reported .PARSE_EXPECTED_ACTION_NAME)

/-- `actionStyle()`: the style word introducing an action (identifier or the
`actor`/`function` keywords); does not advance. -/
def actionStyle : PM String := do
  let s ← get
  match s.currentToken with
  | .TOKEN_IDENTIFIER | .TOKEN_ACTOR | .TOKEN_FUNCTION => tokenString
  | _ => do
      set { s with pos := s.tokenStartPos }
      throw (.reported .PARSE_EXPECTED_ACTION_NAME)

/-- `className()`. -/
def className : PM String := do
  let s ← get
  match s.currentToken with
  | .TOKEN_TYPE_NAME | .TOKEN_IDENTIFIER => do
      let name ← tokenString
      nextToken
      pure name
  | .TOKEN_STRING | .TOKEN_CONCATENATED_STRING => do
      set { s with pos := s.tokenStartPos }
      throw (.reported .PARSE_QUOTED_NOT_VALID_NAME)
  | .TOKEN_CLASS => do
      set { s with pos := s.tokenStartPos }
      throw (.reported .PARSE_CLASS_NOT_VALID_HERE)
  | _ => do
      set { s with pos := s.tokenStartPos }
      throw (.reported .PARSE_EXPECTED_CLASS_NAME)

/-- `typeName()`: a `QualifiedReference` when the current token is a type
name, and `nil` otherwise. -/
def typeName : PM (Option PExpr) := do
  let s ← get
  if s.currentToken = .TOKEN_TYPE_NAME then do
    let ts ← tokenString
    let p ← Pos
    let name := F.QualifiedReference ts s.tokenStartPos (p - s.tokenStartPos)
    nextToken
    pure (some name)
  else
    pure Option.none

/-- `qualifiedName(name)`: join the name stack with the local name. -/
def qualifiedNameJoin (s : PState) (name : String) : String :=
  String.intercalate "::" (s.nameStack ++ [name])

/-- `addDefinition`: append the node to the parser's definition list and
return the same node (the `Definition` interface cast panics on a
non-definition node). -/
def addDefinition (e : PExpr) : PM PExpr := do
  if isDefinition e then do
    modify (fun s => { s with definitions := s.definitions ++ [e] })
    pure e
  else
    throw (.other "Definition type assertion")

/-- Modelled from the spec: `strconv.FormatFloat` for the (rational-valued)
float tokens of the model, used only to build dotted hostname strings. -/
def ratToString (q : Rat) : String :=
  if q.den = 1 then toString q.num else toString q.num ++ "/" ++ toString q.den

/-! ## The mutually recursive grammar productions

The mutually recursive parser methods of `parser.go` are embedded as one
fuel-indexed interpreter `run` dispatching on a production name `Fn`; the
`...Tail`, `...Stmts` and accumulator variants encode the source's `for`
loops as recursion.  Fuel only bounds recursion depth (`PanicVal.fuel` on
exhaustion); it is not part of the source semantics. -/

/-- A production (parser method, possibly with its Go arguments). -/
inductive Fn where
  | parse (expectedEnd : TokenKind) (singleExpression : Bool)
  | parseStmts (expectedEnd : TokenKind)
  | syntacticStatement
  | syntacticCommaTail (acc : List PExpr)
  | collectionEntry
  | argument
  | hashEntry
  | handleKeyword (next : Fn)
  | relationship
  | relationshipTail (lhs : PExpr)
  | assignment
  | assignmentTail (lhs : PExpr)
  | resource
  | expression
  | selectExpression
  | selectTail (lhs : PExpr)
  | orExpression
  | orTail (lhs : PExpr)
  | andExpression
  | andTail (lhs : PExpr)
  | compareExpression
  | compareTail (lhs : PExpr)
  | equalExpression
  | equalTail (lhs : PExpr)
  | shiftExpression
  | shiftTail (lhs : PExpr)
  | additiveExpression
  | additiveTail (lhs : PExpr)
  | multiplicativeExpression
  | multiplicativeTail (lhs : PExpr)
  | matchExpression
  | matchTail (lhs : PExpr)
  | inExpression
  | inTail (lhs : PExpr)
  | unaryExpression
  | primaryExpression
  | primaryTail (expr : PExpr)
  | atomExpression
  | expressions (endToken : TokenKind) (producer : Fn)
  | arrayExpression
  | keyedEntry
  | hashExpression
  | ifExpression (isUnless : Bool)
  | selectorsExpression (test : PExpr)
  | selectorEntry
  | caseExpression
  | caseOptions
  | caseOption
  | resourceExpression (start : Nat) (first : PExpr) (form : ResourceForm)
  | resourceBodies (title : PExpr)
  | resourceBody (title : PExpr)
  | attributeOperations
  | attributeOperation
  | attributeNameExpressionF
  | collectExpression (lhs : PExpr)
  | typeAliasOrDefinition
  | callFunctionExpression (functorExpr : PExpr)
  | lambda
  | arguments
  | multiActionDefinition (start : Nat) (name : String)
  | actorDefinition
  | actionDefinition (name : String)
  | namedActionEntry
  | styledActionDefinition (name : String) (start : Nat) (style : String)
  | inferredStructType
  | nameOrInferredType
  | inferredTupleType
  | functionDefinition
  | planDefinition
  | nodeDefinition
  | hostnames
  | hostname
  | dottedName
  | dottedNames (start : Nat) (names : List String)
  | parameterList
  | lambdaParameterList
  | parameter
  | parameterType
  | classExpression (start : Nat)
  | capabilityMapping (component : PExpr) (kind : String)
  | siteDefinition
  | resourceDefinition (resourceToken : TokenKind)

/-- A production result: a single expression or an expression list. -/
inductive PRes where
  | expr (e : PExpr)
  | exprs (es : List PExpr)

/-- Extract a single-expression result (productions are called at matching
result types; a mismatch is an internal error). -/
def asExpr : PRes → PM PExpr
  | .expr e => pure e
  | _ => throw (.other "expected single expression result")

/-- Extract an expression-list result. -/
def asExprs : PRes → PM (List PExpr)
  | .exprs es => pure es
  | _ => throw (.other "expected expression list result")

/-- The interpreter for the mutually recursive productions of `parser.go`.
Each `Fn` case is the direct translation of the Go method of the same name
(see the corresponding function in `parser.go`). -/
def run : Nat → Fn → PM PRes
  | 0, _ => throw PanicVal.fuel
  | n+1, f =>
    match f with
    | .parse expectedEnd single => do
        let start := skipWhiteStart (← get)
        SetPos start
        if single then
          if (← get).currentToken = expectedEnd then
            pure (.expr (F.Undef start 0))
          else do
            let e ← run n .relationship >>= asExpr
            assertToken expectedEnd
            pure (.expr e)
        else do
          let stmts ← run n (.parseStmts expectedEnd) >>= asExprs
          match transformCalls stmts start with
          | .ok ts => do
              let p ← Pos
              pure (.expr (F.Block ts start (p - start)))
          | .error pv => throw pv
    | .parseStmts expectedEnd => do
        if (← get).currentToken = expectedEnd then pure (.exprs [])
        else do
          let st ← run n .syntacticStatement >>= asExpr
          if (← get).currentToken = .TOKEN_SEMICOLON then nextToken
          let rest ← run n (.parseStmts expectedEnd) >>= asExprs
          pure (.exprs (st :: rest))
    | .syntacticStatement => do
        let e ← run n .relationship >>= asExpr
        if (← get).currentToken = .TOKEN_COMMA then do
          let args ← run n (.syntacticCommaTail [e]) >>= asExprs
          let p ← Pos
          pure (.expr (.mk (.CommaSeparatedList args) e.byteOffset (p - e.byteOffset)))
        else pure (.expr e)
    | .syntacticCommaTail acc => do
        nextToken
        let r ← run n .relationship >>= asExpr
        let acc := acc ++ [r]
        if (← get).currentToken = .TOKEN_COMMA then run n (.syntacticCommaTail acc)
        else pure (.exprs acc)
    | .collectionEntry => run n .argument
    | .argument => do
        let e ← run n (.handleKeyword .relationship) >>= asExpr
        if (← get).currentToken = .TOKEN_FARROW then do
          nextToken
          let v ← run n (.handleKeyword .relationship) >>= asExpr
          let p ← Pos
          pure (.expr (F.KeyedEntry e v e.byteOffset (p - e.byteOffset)))
        else pure (.expr e)
    | .hashEntry => run n (.handleKeyword .relationship)
    | .handleKeyword next => do
        let s ← get
        match s.currentToken with
        | .TOKEN_TYPE | .TOKEN_FUNCTION | .TOKEN_PLAN | .TOKEN_ACTOR | .TOKEN_APPLICATION
        | .TOKEN_CONSUMES | .TOKEN_PRODUCES | .TOKEN_SITE => do
            let ts ← tokenString
            let p ← Pos
            let e := F.QualifiedName ts s.tokenStartPos (p - s.tokenStartPos)
            nextToken
            if (← get).currentToken = .TOKEN_LP then run n (.callFunctionExpression e)
            else pure (.expr e)
        | _ => run n next
    | .relationship => do
        let e ← run n .assignment >>= asExpr
        run n (.relationshipTail e)
    | .relationshipTail lhs => do
        let s ← get
        if s.currentToken = .TOKEN_IN_EDGE ∨ s.currentToken = .TOKEN_IN_EDGE_SUB ∨
           s.currentToken = .TOKEN_OUT_EDGE ∨ s.currentToken = .TOKEN_OUT_EDGE_SUB then do
          let op ← tokenString
          nextToken
          let rhs ← run n .assignment >>= asExpr
          let p ← Pos
          run n (.relationshipTail (F.RelOp op lhs rhs lhs.byteOffset (p - lhs.byteOffset)))
        else pure (.expr lhs)
    | .assignment => do
        let e ← run n .resource >>= asExpr
        run n (.assignmentTail e)
    | .assignmentTail lhs => do
        let s ← get
        if s.currentToken = .TOKEN_ASSIGN ∨ s.currentToken = .TOKEN_ADD_ASSIGN ∨
           s.currentToken = .TOKEN_SUBTRACT_ASSIGN then do
          let op ← tokenString
          nextToken
          let rhs ← run n .assignment >>= asExpr
          let p ← Pos
          run n (.assignmentTail (F.Assignment op lhs rhs lhs.byteOffset (p - lhs.byteOffset)))
        else pure (.expr lhs)
    | .resource => do
        let e ← run n .expression >>= asExpr
        if (← get).currentToken = .TOKEN_LC then
          run n (.resourceExpression e.byteOffset e .REGULAR)
        else pure (.expr e)
    | .expression => do
        let e ← run n .selectExpression >>= asExpr
        let s ← get
        if s.currentToken = .TOKEN_PRODUCES ∨ s.currentToken = .TOKEN_CONSUMES then do
          let capToken ← tokenString
          match e.getKind with
          | .QualifiedName _ | .QualifiedReference _ _ | .ReservedWord _ _
          | .AccessExpression _ _ => run n (.capabilityMapping e capToken)
          | _ => pure (.expr e)
        else pure (.expr e)
    | .selectExpression => do
        let e ← run n .orExpression >>= asExpr
        run n (.selectTail e)
    | .selectTail lhs => do
        if (← get).currentToken = .TOKEN_QMARK then do
          let e ← run n (.selectorsExpression lhs) >>= asExpr
          run n (.selectTail e)
        else pure (.expr lhs)
    | .orExpression => do
        let e ← run n .andExpression >>= asExpr
        run n (.orTail e)
    | .orTail lhs => do
        if (← get).currentToken = .TOKEN_OR then do
          nextToken
          let rhs ← run n .orExpression >>= asExpr
          let p ← Pos
          run n (.orTail (F.Or lhs rhs lhs.byteOffset (p - lhs.byteOffset)))
        else pure (.expr lhs)
    | .andExpression => do
        let e ← run n .compareExpression >>= asExpr
        run n (.andTail e)
    | .andTail lhs => do
        if (← get).currentToken = .TOKEN_AND then do
          nextToken
          let rhs ← run n .andExpression >>= asExpr
          let p ← Pos
          run n (.andTail (F.And lhs rhs lhs.byteOffset (p - lhs.byteOffset)))
        else pure (.expr lhs)
    | .compareExpression => do
        let e ← run n .equalExpression >>= asExpr
        run n (.compareTail e)
    | .compareTail lhs => do
        let s ← get
        if s.currentToken = .TOKEN_LESS ∨ s.currentToken = .TOKEN_LESS_EQUAL ∨
           s.currentToken = .TOKEN_GREATER ∨ s.currentToken = .TOKEN_GREATER_EQUAL then do
          let op ← tokenString
          nextToken
          let rhs ← run n .compareExpression >>= asExpr
          let p ← Pos
          run n (.compareTail (F.Comparison op lhs rhs lhs.byteOffset (p - lhs.byteOffset)))
        else pure (.expr lhs)
    | .equalExpression => do
        let e ← run n .shiftExpression >>= asExpr
        run n (.equalTail e)
    | .equalTail lhs => do
        let s ← get
        if s.currentToken = .TOKEN_EQUAL ∨ s.currentToken = .TOKEN_NOT_EQUAL then do
          let op ← tokenString
          nextToken
          let rhs ← run n .equalExpression >>= asExpr
          let p ← Pos
          run n (.equalTail (F.Comparison op lhs rhs lhs.byteOffset (p - lhs.byteOffset)))
        else pure (.expr lhs)
    | .shiftExpression => do
        let e ← run n .additiveExpression >>= asExpr
        run n (.shiftTail e)
    | .shiftTail lhs => do
        let s ← get
        if s.currentToken = .TOKEN_LSHIFT ∨ s.currentToken = .TOKEN_RSHIFT then do
          let op ← tokenString
          nextToken
          let rhs ← run n .shiftExpression >>= asExpr
          let p ← Pos
          run n (.shiftTail (F.Arithmetic op lhs rhs lhs.byteOffset (p - lhs.byteOffset)))
        else pure (.expr lhs)
    | .additiveExpression => do
        let e ← run n .multiplicativeExpression >>= asExpr
        run n (.additiveTail e)
    | .additiveTail lhs => do
        let s ← get
        if s.currentToken = .TOKEN_ADD ∨ s.currentToken = .TOKEN_SUBTRACT then do
          let op ← tokenString
          nextToken
          let rhs ← run n .additiveExpression >>= asExpr
          let p ← Pos
          run n (.additiveTail (F.Arithmetic op lhs rhs lhs.byteOffset (p - lhs.byteOffset)))
        else pure (.expr lhs)
    | .multiplicativeExpression => do
        let e ← run n .matchExpression >>= asExpr
        run n (.multiplicativeTail e)
    | .multiplicativeTail lhs => do
        let s ← get
        if s.currentToken = .TOKEN_MULTIPLY ∨ s.currentToken = .TOKEN_DIVIDE ∨
           s.currentToken = .TOKEN_REMAINDER then do
          let op ← tokenString
          nextToken
          let rhs ← run n .multiplicativeExpression >>= asExpr
          let p ← Pos
          run n (.multiplicativeTail (F.Arithmetic op lhs rhs lhs.byteOffset (p - lhs.byteOffset)))
        else pure (.expr lhs)
    | .matchExpression => do
        let e ← run n .inExpression >>= asExpr
        run n (.matchTail e)
    | .matchTail lhs => do
        let s ← get
        if s.currentToken = .TOKEN_MATCH ∨ s.currentToken = .TOKEN_NOT_MATCH then do
          let op ← tokenString
          nextToken
          let rhs ← run n .matchExpression >>= asExpr
          let p ← Pos
          run n (.matchTail (F.Match op lhs rhs lhs.byteOffset (p - lhs.byteOffset)))
        else pure (.expr lhs)
    | .inExpression => do
        let e ← run n .unaryExpression >>= asExpr
        run n (.inTail e)
    | .inTail lhs => do
        if (← get).currentToken = .TOKEN_IN then do
          nextToken
          let rhs ← run n .inExpression >>= asExpr
          let p ← Pos
          run n (.inTail (F.In lhs rhs lhs.byteOffset (p - lhs.byteOffset)))
        else pure (.expr lhs)
    | .unaryExpression => do
        let s ← get
        let unaryStart := s.tokenStartPos
        match s.currentToken with
        | .TOKEN_SUBTRACT =>
            if isDecimalDigit (← Peek) then do
              nextToken
              let s2 ← get
              if s2.currentToken = .TOKEN_INTEGER then
                match s2.tokenValue with
                | .int v r => setTokenValue s2.currentToken (.int (-v) r)
                | _ => throw (.other "int64 type assertion")
              else
                match s2.tokenValue with
                | .float v => setTokenValue s2.currentToken (.float (-v))
                | _ => throw (.other "float64 type assertion")
              let e ← run n .primaryExpression >>= asExpr
              let p ← Pos
              pure (.expr (e.updateOffsetAndLength unaryStart (p - unaryStart)))
            else do
              nextToken
              let e ← run n .primaryExpression >>= asExpr
              let p ← Pos
              pure (.expr (F.Negate e unaryStart (p - unaryStart)))
        | .TOKEN_ADD =>
            if isDecimalDigit (← Peek) then do
              nextToken
              let e ← run n .primaryExpression >>= asExpr
              let p ← Pos
              pure (.expr (e.updateOffsetAndLength unaryStart (p - unaryStart)))
            else throw (.reported .LEX_UNEXPECTED_TOKEN)
        | .TOKEN_NOT => do
            nextToken
            let e ← run n .unaryExpression >>= asExpr
            let p ← Pos
            pure (.expr (F.Not e unaryStart (p - unaryStart)))
        | .TOKEN_MULTIPLY => do
            nextToken
            let e ← run n .unaryExpression >>= asExpr
            let p ← Pos
            pure (.expr (F.Unfold e unaryStart (p - unaryStart)))
        | .TOKEN_AT | .TOKEN_ATAT => do
            let kind : ResourceForm :=
              if s.currentToken = .TOKEN_ATAT then .EXPORTED else .VIRTUAL
            nextToken
            let e ← run n .primaryExpression >>= asExpr
            assertToken .TOKEN_LC
            run n (.resourceExpression unaryStart e kind)
        | _ => run n .primaryExpression
    | .primaryExpression => do
        let e ← run n .atomExpression >>= asExpr
        run n (.primaryTail e)
    | .primaryTail expr => do
        let s ← get
        match s.currentToken with
        | .TOKEN_LP | .TOKEN_PIPE => do
            let e ← run n (.callFunctionExpression expr) >>= asExpr
            run n (.primaryTail e)
        | .TOKEN_LCOLLECT | .TOKEN_LLCOLLECT => do
            let e ← run n (.collectExpression expr) >>= asExpr
            run n (.primaryTail e)
        | .TOKEN_LB => do
            nextToken
            let params ← run n .arrayExpression >>= asExprs
            let p ← Pos
            run n (.primaryTail (F.Access expr params expr.byteOffset (p - expr.byteOffset)))
        | .TOKEN_DOT => do
            nextToken
            let s2 ← get
            let rhs ←
              if s2.currentToken = .TOKEN_TYPE then do
                let ts ← tokenString
                let p ← Pos
                let r := F.QualifiedName ts s2.tokenStartPos (p - s2.tokenStartPos)
                nextToken
                pure r
              else run n .atomExpression >>= asExpr
            let p ← Pos
            run n (.primaryTail (F.NamedAccess expr rhs expr.byteOffset (p - expr.byteOffset)))
        | _ =>
            if isNamedAccess expr then
              pure (.expr (convertLhsToCall expr [] Option.none expr.byteOffset expr.byteLength))
            else pure (.expr expr)
    | .atomExpression => do
        let s ← get
        let atomStart := s.tokenStartPos
        match s.currentToken with
        | .TOKEN_LP | .TOKEN_WSLP => do
            nextToken
            let inner ← run n .relationship >>= asExpr
            let p ← Pos
            let e := F.Parenthesized inner atomStart (p - atomStart)
            assertToken .TOKEN_RP
            nextToken
            pure (.expr e)
        | .TOKEN_LB | .TOKEN_LISTSTART => do
            nextToken
            let els ← run n .arrayExpression >>= asExprs
            let p ← Pos
            pure (.expr (F.Array els atomStart (p - atomStart)))
        | .TOKEN_LC => do
            nextToken
            let entries ← run n .hashExpression >>= asExprs
            let p ← Pos
            pure (.expr (F.Hash entries atomStart (p - atomStart)))
        | .TOKEN_BOOLEAN => do
            match s.tokenValue with
            | .bool b => do
                let p ← Pos
                let e := F.Boolean b atomStart (p - atomStart)
                nextToken
                pure (.expr e)
            | _ => throw (.other "bool type assertion")
        | .TOKEN_INTEGER => do
            match s.tokenValue with
            | .int v _ => do
                let p ← Pos
                let e := F.Integer v s.radix atomStart (p - atomStart)
                nextToken
                pure (.expr e)
            | _ => throw (.other "int64 type assertion")
        | .TOKEN_FLOAT => do
            match s.tokenValue with
            | .float v => do
                let p ← Pos
                let e := F.Float v atomStart (p - atomStart)
                nextToken
                pure (.expr e)
            | _ => throw (.other "float64 type assertion")
        | .TOKEN_STRING => do
            let ts ← tokenString
            let p ← Pos
            let e := F.String ts atomStart (p - atomStart)
            nextToken
            pure (.expr e)
        | .TOKEN_ATTR | .TOKEN_PRIVATE => do
            let ts ← tokenString
            let p ← Pos
            let e := F.ReservedWord ts false atomStart (p - atomStart)
            nextToken
            pure (.expr e)
        | .TOKEN_DEFAULT => do
            let p ← Pos
            let e := F.Default atomStart (p - atomStart)
            nextToken
            pure (.expr e)
        | .TOKEN_HEREDOC | .TOKEN_CONCATENATED_STRING => do
            match s.tokenValue with
            | .expr e => do
                nextToken
                pure (.expr e)
            | _ => throw (.other "Expression type assertion")
        | .TOKEN_REGEXP => do
            let ts ← tokenString
            let p ← Pos
            let e := F.Regexp ts atomStart (p - atomStart)
            nextToken
            pure (.expr e)
        | .TOKEN_UNDEF => do
            let p ← Pos
            let e := F.Undef atomStart (p - atomStart)
            nextToken
            pure (.expr e)
        | .TOKEN_TYPE_NAME => do
            let ts ← tokenString
            let p ← Pos
            let e := F.QualifiedReference ts atomStart (p - atomStart)
            nextToken
            pure (.expr e)
        | .TOKEN_IDENTIFIER => do
            let ts ← tokenString
            let p ← Pos
            let e := F.QualifiedName ts atomStart (p - atomStart)
            nextToken
            pure (.expr e)
        | .TOKEN_VARIABLE => do
            let vni := s.tokenValue
            nextToken
            let name ←
              match vni with
              | .str v => pure (F.QualifiedName v (atomStart+1) v.length)
              | .int v _ => do
                  let p ← Pos
                  pure (F.Integer v 10 (atomStart+1) (p - (atomStart+1)))
              | _ => throw (.other "int64 type assertion")
            let p ← Pos
            pure (.expr (F.Variable name atomStart (p - atomStart)))
        | .TOKEN_CASE => run n .caseExpression
        | .TOKEN_IF => run n (.ifExpression false)
        | .TOKEN_UNLESS => run n (.ifExpression true)
        | .TOKEN_CLASS => do
            let name ← tokenString
            nextToken
            if (← get).currentToken = .TOKEN_LC then do
              let p ← Pos
              pure (.expr (F.QualifiedName name atomStart (p - atomStart)))
            else run n (.classExpression atomStart)
        | .TOKEN_TYPE => do
            let name ← tokenString
            nextToken
            if (← get).currentToken = .TOKEN_TYPE_NAME then
              run n .typeAliasOrDefinition
            else do
              let p ← Pos
              pure (.expr (F.QualifiedName name atomStart (p - atomStart)))
        | .TOKEN_PLAN => run n .planDefinition
        | .TOKEN_ACTOR => run n .actorDefinition
        | .TOKEN_FUNCTION => run n .functionDefinition
        | .TOKEN_NODE => run n .nodeDefinition
        | .TOKEN_DEFINE => run n (.resourceDefinition s.currentToken)
        | .TOKEN_APPLICATION => run n (.resourceDefinition s.currentToken)
        | .TOKEN_SITE => run n .siteDefinition
        | .TOKEN_RENDER_STRING => do
            let ts ← tokenString
            let p ← Pos
            let e := F.RenderString ts atomStart (p - atomStart)
            nextToken
            pure (.expr e)
        | .TOKEN_RENDER_EXPR => do
            nextToken
            let e ← run n .expression >>= asExpr
            let p ← Pos
            pure (.expr (F.RenderExpression e atomStart (p - atomStart)))
        | _ => do
            SetPos s.tokenStartPos
            throw (.reported .LEX_UNEXPECTED_TOKEN)
    | .expressions endToken producer => do
        let s ← get
        if s.currentToken = endToken then do
          nextToken
          pure (.exprs [])
        else do
          let e ← run n producer >>= asExpr
          let s2 ← get
          if s2.currentToken ≠ .TOKEN_COMMA then
            if s2.currentToken ≠ endToken then do
              SetPos s2.tokenStartPos
              throw (.reported .PARSE_EXPECTED_ONE_OF_TOKENS)
            else do
              nextToken
              pure (.exprs [e])
          else do
            nextToken
            let rest ← run n (.expressions endToken producer) >>= asExprs
            pure (.exprs (e :: rest))
    | .arrayExpression => do
        let es ← run n (.expressions .TOKEN_RB .collectionEntry) >>= asExprs
        pure (.exprs (joinHashEntries es))
    | .keyedEntry => do
        let key ← run n .hashEntry >>= asExpr
        if (← get).currentToken ≠ .TOKEN_FARROW then
          throw (.reported .PARSE_EXPECTED_FARROW_AFTER_KEY)
        else do
          nextToken
          let value ← run n .hashEntry >>= asExpr
          let p ← Pos
          pure (.expr (F.KeyedEntry key value key.byteOffset (p - key.byteOffset)))
    | .hashExpression => run n (.expressions .TOKEN_RC .keyedEntry)
    | .ifExpression isUnless => do
        let start := (← get).tokenStartPos
        nextToken
        let condition ← run n .orExpression >>= asExpr
        assertToken .TOKEN_LC
        nextToken
        let thenPart ← run n (.parse .TOKEN_RC false) >>= asExpr
        nextToken
        let s ← get
        let elsePart ←
          match s.currentToken with
          | .TOKEN_ELSE => do
              nextToken
              assertToken .TOKEN_LC
              nextToken
              let e ← run n (.parse .TOKEN_RC false) >>= asExpr
              nextToken
              pure e
          | .TOKEN_ELSIF =>
              if isUnless then throw (.reported .PARSE_ELSIF_IN_UNLESS)
              else run n (.ifExpression false) >>= asExpr
          | _ => pure (F.Nop s.tokenStartPos 0)
        let p ← Pos
        if isUnless then
          pure (.expr (F.Unless condition thenPart elsePart start (p - start)))
        else
          pure (.expr (F.If condition thenPart elsePart start (p - start)))
    | .selectorsExpression test => do
        nextToken
        let selectors ←
          if (← get).currentToken = .TOKEN_SELC then do
            nextToken
            run n (.expressions .TOKEN_RC .selectorEntry) >>= asExprs
          else do
            let e ← run n .selectorEntry >>= asExpr
            pure [e]
        let p ← Pos
        pure (.expr (F.Select test selectors test.byteOffset (p - test.byteOffset)))
    | .selectorEntry => do
        let start := (← get).tokenStartPos
        let lhs ← run n .expression >>= asExpr
        assertToken .TOKEN_FARROW
        nextToken
        let rhs ← run n .expression >>= asExpr
        let p ← Pos
        pure (.expr (F.Selector lhs rhs start (p - start)))
    | .caseExpression => do
        let start := (← get).tokenStartPos
        nextToken
        let test ← run n .expression >>= asExpr
        assertToken .TOKEN_LC
        nextToken
        let options ← run n .caseOptions >>= asExprs
        let p ← Pos
        pure (.expr (F.Case test options start (p - start)))
    | .caseOptions => do
        let o ← run n .caseOption >>= asExpr
        if (← get).currentToken = .TOKEN_RC then do
          nextToken
          pure (.exprs [o])
        else do
          let rest ← run n .caseOptions >>= asExprs
          pure (.exprs (o :: rest))
    | .caseOption => do
        let start := (← get).tokenStartPos
        let values ← run n (.expressions .TOKEN_COLON .expression) >>= asExprs
        assertToken .TOKEN_LC
        nextToken
        let block ← run n (.parse .TOKEN_RC false) >>= asExpr
        nextToken
        let p ← Pos
        pure (.expr (F.When values block start (p - start)))
    | .resourceExpression start first form => do
        let bodiesStart ← Pos
        nextToken
        let titleStart ← Pos
        let firstTitle : Option PExpr ←
          if (← get).currentToken ≠ .TOKEN_MULTIPLY then do
            let t ← run n .expression >>= asExpr
            pure (some t)
          else pure Option.none
        if (← get).currentToken ≠ .TOKEN_COLON then do
          SetPos titleStart
          let shape := resourceShape first
          if shape = "resource" then
            match first.getKind with
            | .QualifiedName nm =>
                if statementCalls nm then do
                  SetPos bodiesStart
                  nextToken
                  let entries ← run n .hashExpression >>= asExprs
                  let p ← Pos
                  let arg := F.Hash entries bodiesStart (p - bodiesStart)
                  let p2 ← Pos
                  pure (.expr (F.CallNamed first true [arg] Option.none start (p2 - start)))
                else do
                  SetPos start
                  throw (.reported .PARSE_RESOURCE_WITHOUT_TITLE)
            | _ => do
                SetPos start
                throw (.reported .PARSE_RESOURCE_WITHOUT_TITLE)
          else if shape = "defaults" then do
            SetPos bodiesStart
            nextToken
            let ops ← run n .attributeOperations >>= asExprs
            let p ← Pos
            let e := F.ResourceDefaults form first ops start (p - start)
            assertToken .TOKEN_RC
            nextToken
            pure (.expr e)
          else if shape = "override" then do
            SetPos bodiesStart
            nextToken
            let ops ← run n .attributeOperations >>= asExprs
            let p ← Pos
            let e := F.ResourceOverride form first ops start (p - start)
            assertToken .TOKEN_RC
            nextToken
            pure (.expr e)
          else do
            SetPos bodiesStart
            setToken .TOKEN_LC
            pure (.expr first)
        else
          match firstTitle with
          | some t => do
              let bodies ← run n (.resourceBodies t) >>= asExprs
              let p ← Pos
              let e := F.Resource form first bodies start (p - start)
              assertToken .TOKEN_RC
              nextToken
              pure (.expr e)
          | Option.none => throw (.other "nil title")
    | .resourceBodies title => do
        if (← get).currentToken = .TOKEN_RC then pure (.exprs [])
        else do
          let b ← run n (.resourceBody title) >>= asExpr
          if (← get).currentToken ≠ .TOKEN_SEMICOLON then pure (.exprs [b])
          else do
            nextToken
            if (← get).currentToken ≠ .TOKEN_RC then do
              let t2 ← run n .expression >>= asExpr
              let rest ← run n (.resourceBodies t2) >>= asExprs
              pure (.exprs (b :: rest))
            else pure (.exprs [b])
    | .resourceBody title => do
        if (← get).currentToken ≠ .TOKEN_COLON then do
          SetPos title.byteOffset
          throw (.reported .PARSE_EXPECTED_TITLE)
        else do
          nextToken
          let ops ← run n .attributeOperations >>= asExprs
          let p ← Pos
          pure (.expr (F.ResourceBody title ops title.byteOffset (p - title.byteOffset)))
    | .attributeOperations => do
        let s ← get
        if s.currentToken = .TOKEN_SEMICOLON ∨ s.currentToken = .TOKEN_RC then
          pure (.exprs [])
        else do
          let op ← run n .attributeOperation >>= asExpr
          if (← get).currentToken ≠ .TOKEN_COMMA then pure (.exprs [op])
          else do
            nextToken
            let rest ← run n .attributeOperations >>= asExprs
            pure (.exprs (op :: rest))
    | .attributeOperation => do
        let s ← get
        let start := s.tokenStartPos
        if s.currentToken = .TOKEN_MULTIPLY then do
          nextToken
          assertToken .TOKEN_FARROW
          nextToken
          let v ← run n .expression >>= asExpr
          let p ← Pos
          pure (.expr (F.AttributesOp v start (p - start)))
        else do
          let name ← attributeName
          let s2 ← get
          if s2.currentToken = .TOKEN_FARROW ∨ s2.currentToken = .TOKEN_PARROW then do
            let op ← tokenString
            nextToken
            let v ← run n .expression >>= asExpr
            let p ← Pos
            pure (.expr (F.AttributeOp op name v start (p - start)))
          else throw (.reported .PARSE_INVALID_ATTRIBUTE)
    | .attributeNameExpressionF => do
        let e ← attributeNameExpression
        pure (.expr e)
    | .collectExpression lhs => do
        let queryStart := (← get).tokenStartPos
        let collectQuery ←
          if (← get).currentToken = .TOKEN_LCOLLECT then do
            nextToken
            let queryExpr ←
              if (← get).currentToken = .TOKEN_RCOLLECT then do
                pure (F.Nop (← get).tokenStartPos 0)
              else do
                let e ← run n .expression >>= asExpr
                assertToken .TOKEN_RCOLLECT
                pure e
            nextToken
            let p ← Pos
            pure (F.VirtualQuery queryExpr queryStart (p - queryStart))
          else do
            nextToken
            let queryExpr ←
              if (← get).currentToken = .TOKEN_RRCOLLECT then do
                pure (F.Nop queryStart ((← get).tokenStartPos - queryStart))
              else do
                let e ← run n .expression >>= asExpr
                assertToken .TOKEN_RRCOLLECT
                pure e
            nextToken
            let p ← Pos
            pure (F.ExportedQuery queryExpr queryStart (p - queryStart))
        let attributeOps ←
          if (← get).currentToken ≠ .TOKEN_LC then pure ([] : List PExpr)
          else do
            nextToken
            let ops ← run n .attributeOperations >>= asExprs
            assertToken .TOKEN_RC
            nextToken
            pure ops
        let p ← Pos
        pure (.expr (F.Collect lhs collectQuery attributeOps lhs.byteOffset (p - lhs.byteOffset)))
    | .typeAliasOrDefinition => do
        let start := (← get).tokenStartPos
        let typeExpr ← run n .parameterType >>= asExpr
        match typeExpr.getKind with
        | .QualifiedReference fqrName _ => do
            let s1 ← get
            match s1.currentToken with
            | .TOKEN_ASSIGN => do
                nextToken
                let bodyStart := (← get).tokenStartPos
                let body0 ← run n .expression >>= asExpr
                let body ←
                  match body0.getKind with
                  | .QualifiedReference pnName _ =>
                      if (← get).currentToken = .TOKEN_LC then do
                        let hashE ← run n .expression >>= asExpr
                        match hashE.getKind with
                        | .LiteralHash entries => do
                            let p ← Pos
                            if pnName = "Object" ∨ pnName = "TypeSet" then
                              pure (F.Access body0 [hashE] bodyStart (p - bodyStart))
                            else do
                              let pref := F.String "parent" body0.byteOffset body0.byteLength
                              let hash2 := F.Hash
                                (F.KeyedEntry pref body0 body0.byteOffset body0.byteLength :: entries)
                                bodyStart (p - bodyStart)
                              pure (F.Access (F.QualifiedReference "Object" bodyStart 0) [hash2]
                                bodyStart (p - bodyStart))
                        | _ => throw (.other "LiteralHash type assertion")
                      else pure body0
                  | .LiteralList elements =>
                      if elements.length = 1 then do
                        let p ← Pos
                        pure (F.Access (F.QualifiedReference "Object" bodyStart 0) elements
                          bodyStart (p - bodyStart))
                      else pure body0
                  | .LiteralHash _ => do
                      let p ← Pos
                      pure (F.Access (F.QualifiedReference "Object" bodyStart 0) [body0]
                        bodyStart (p - bodyStart))
                  | _ => pure body0
                let p ← Pos
                let d ← addDefinition (F.TypeAlias fqrName body start (p - start))
                pure (.expr d)
            | .TOKEN_INHERITS => do
                nextToken
                let nameExpr ← typeName
                match nameExpr with
                | Option.none => throw (.reported .PARSE_INHERITS_MUST_BE_TYPE_NAME)
                | some ne =>
                    match ne.getKind with
                    | .QualifiedReference parentName _ => do
                        assertToken .TOKEN_LC
                        nextToken
                        let body ← run n (.parse .TOKEN_RC false) >>= asExpr
                        nextToken
                        let p ← Pos
                        let d ← addDefinition
                          (F.TypeDefinition fqrName parentName body start (p - start))
                        pure (.expr d)
                    | _ => throw (.other "QualifiedReference type assertion")
            | .TOKEN_LC => do
                nextToken
                let body ← run n (.parse .TOKEN_RC false) >>= asExpr
                nextToken
                let p ← Pos
                let d ← addDefinition (F.TypeDefinition fqrName "" body start (p - start))
                pure (.expr d)
            | _ => throw (.reported .LEX_UNEXPECTED_TOKEN)
        | .AccessExpression _ _ =>
            if (← get).currentToken = .TOKEN_ASSIGN then do
              nextToken
              let m ← run n .expression >>= asExpr
              let p ← Pos
              let d ← addDefinition (F.TypeMapping typeExpr m start (p - start))
              pure (.expr d)
            else throw (.reported .PARSE_EXPECTED_TYPE_NAME_AFTER_TYPE)
        | _ => throw (.reported .PARSE_EXPECTED_TYPE_NAME_AFTER_TYPE)
    | .callFunctionExpression functorExpr => do
        let args ←
          if (← get).currentToken ≠ .TOKEN_PIPE then do
            nextToken
            run n .arguments >>= asExprs
          else pure ([] : List PExpr)
        let block ←
          if (← get).currentToken = .TOKEN_PIPE then do
            let l ← run n .lambda >>= asExpr
            pure (some l)
          else pure (Option.none : Option PExpr)
        let start := functorExpr.byteOffset
        let p ← Pos
        if isNamedAccess functorExpr then
          pure (.expr (convertLhsToCall functorExpr args block start (p - start)))
        else
          pure (.expr (F.CallNamed functorExpr true args block start (p - start)))
    | .lambda => do
        let start := (← get).tokenStartPos
        let parameters ← run n .lambdaParameterList >>= asExprs
        let returnType ←
          if (← get).currentToken = .TOKEN_RSHIFT then do
            nextToken
            let t ← run n .parameterType >>= asExpr
            pure (some t)
          else pure (Option.none : Option PExpr)
        assertToken .TOKEN_LC
        nextToken
        let block ← run n (.parse .TOKEN_RC false) >>= asExpr
        nextToken
        let p ← Pos
        pure (.expr (F.Lambda parameters block returnType start (p - start)))
    | .arguments => do
        let es ← run n (.expressions .TOKEN_RP .argument) >>= asExprs
        pure (.exprs (joinHashEntries es))
    | .multiActionDefinition start name => do
        assertToken .TOKEN_VARIABLE
        let v1 ← run n .atomExpression >>= asExpr
        let iterVars ←
          if (← get).currentToken = .TOKEN_VARIABLE then do
            let v2 ← run n .atomExpression >>= asExpr
            pure [v1, v2]
          else pure [v1]
        assertToken .TOKEN_IN
        nextToken
        let p1 ← run n .parameter >>= asExpr
        let iterParams ←
          if (← get).currentToken = .TOKEN_COMMA then do
            nextToken
            let p2 ← run n .parameter >>= asExpr
            pure [p1, p2]
          else pure [p1]
        let act ← run n (.actionDefinition name) >>= asExpr
        match act.getKind with
        | .ActionDefinition _ _ _ _ _ _ => do
            let s ← get
            let p ← Pos
            let d ← addDefinition
              (F.MultiAction (qualifiedNameJoin s name) iterParams iterVars act start (p - start))
            pure (.expr d)
        | _ => throw (.other "ActionDefinition type assertion")
    | .actorDefinition => do
        let start ← Pos
        nextToken
        let name ← actionName
        run n (.styledActionDefinition name start "actor")
    | .actionDefinition name => do
        let start ← Pos
        let style ← actionStyle
        nextToken
        run n (.styledActionDefinition name start style)
    | .namedActionEntry => do
        let key ← actionName
        if (← get).currentToken ≠ .TOKEN_FARROW then
          throw (.reported .PARSE_EXPECTED_FARROW_AFTER_KEY)
        else do
          nextToken
          run n (.actionDefinition key)
    | .styledActionDefinition name start style => do
        if style = "for" then run n (.multiActionDefinition start name)
        else do
          let typeNameStr ←
            if style = "actor" then do
              modify (fun s => { s with nameStack := s.nameStack ++ [name] })
              pure ""
            else if style = "resource" then do
              let (tn, ok) ← identifier
              if ok then do
                let s ← get
                pure (qualifiedNameJoin s tn)
              else pure ""
            else pure ""
          let parameters ← run n .parameterList >>= asExprs
          let returnType ←
            if (← get).currentToken = .TOKEN_RSHIFT then do
              nextToken
              if style = "resource" ∨ style = "actor" then
                match (← get).currentToken with
                | .TOKEN_LC => do
                    let t ← run n .inferredStructType >>= asExpr
                    pure (some t)
                | .TOKEN_LB => do
                    let t ← run n .inferredTupleType >>= asExpr
                    pure (some t)
                | _ => do
                    let t ← run n .parameterType >>= asExpr
                    pure (some t)
              else do
                let t ← run n .parameterType >>= asExpr
                pure (some t)
            else pure (Option.none : Option PExpr)
          let blockStart := (← get).tokenStartPos
          assertToken .TOKEN_LC
          nextToken
          let block ←
            if style = "actor" then do
              let actions ← run n (.expressions .TOKEN_RC .namedActionEntry) >>= asExprs
              let p ← Pos
              let b := F.Block actions blockStart (p - blockStart)
              modify (fun s => { s with nameStack := s.nameStack.dropLast })
              pure b
            else if style = "resource" then do
              let entries ← run n .hashExpression >>= asExprs
              let p ← Pos
              pure (F.Hash entries blockStart (p - blockStart))
            else do
              let stmts ← run n (.expressions .TOKEN_RC .expression) >>= asExprs
              let p ← Pos
              pure (F.Block stmts blockStart (p - blockStart))
          let s ← get
          let p ← Pos
          let d ← addDefinition
            (F.Action (qualifiedNameJoin s name) typeNameStr style parameters block returnType
              start (p - start))
          pure (.expr d)
    | .inferredStructType => do
        let start := (← get).tokenStartPos
        nextToken
        let exprs ← run n (.expressions .TOKEN_RC .attributeNameExpressionF) >>= asExprs
        let v := F.Variable (F.QualifiedName "r" 0 0) 0 0
        let exprs := exprs.map (fun qn =>
          let s := qn.byteOffset
          let l := qn.byteLength
          F.KeyedEntry qn
            (F.Access (F.QualifiedReference "TypeReference" s l)
              [F.NamedAccess v qn s l] s l) s l)
        let p ← Pos
        pure (.expr (F.Access (F.QualifiedReference "Struct" 0 0)
          [F.Hash exprs start (p - start)] start (p - start)))
    | .nameOrInferredType => do
        match (← get).currentToken with
        | .TOKEN_LC => run n .inferredStructType
        | .TOKEN_LB => run n .inferredTupleType
        | _ => do
            let e ← attributeNameExpression
            pure (.expr e)
    | .inferredTupleType => do
        let start := (← get).tokenStartPos
        nextToken
        let exprs ← run n (.expressions .TOKEN_RB .nameOrInferredType) >>= asExprs
        let v := F.Variable (F.QualifiedName "r" 0 0) 0 0
        let exprs := exprs.map (fun e =>
          match e.getKind with
          | .QualifiedName _ =>
              let s := e.byteOffset
              let l := e.byteLength
              F.KeyedEntry e
                (F.Access (F.QualifiedReference "TypeReference" s l)
                  [F.NamedAccess v e s l] s l) s l
          | _ => e)
        let p ← Pos
        pure (.expr (F.Access (F.QualifiedReference "Tuple" 0 0) exprs start (p - start)))
    | .functionDefinition => do
        let s0 ← get
        let start := s0.tokenStartPos
        nextToken
        let s1 ← get
        let name ←
          match s1.currentToken with
          | .TOKEN_IDENTIFIER | .TOKEN_TYPE_NAME => tokenString
          | _ => do
              set { s1 with pos := s1.tokenStartPos }
              throw (.reported .PARSE_EXPECTED_NAME_AFTER_FUNCTION)
        nextToken
        let parameters ← run n .parameterList >>= asExprs
        let returnType ←
          if (← get).currentToken = .TOKEN_RSHIFT then do
            nextToken
            let t ← run n .parameterType >>= asExpr
            pure (some t)
          else pure (Option.none : Option PExpr)
        assertToken .TOKEN_LC
        nextToken
        let block ← run n (.parse .TOKEN_RC false) >>= asExpr
        nextToken
        let p ← Pos
        let d ← addDefinition (F.Function name parameters block returnType start (p - start))
        pure (.expr d)
    | .planDefinition => do
        let s0 ← get
        let start := s0.tokenStartPos
        nextToken
        let s1 ← get
        let name ←
          match s1.currentToken with
          | .TOKEN_IDENTIFIER | .TOKEN_TYPE_NAME => tokenString
          | _ => do
              set { s1 with pos := s1.tokenStartPos }
              throw (.reported .PARSE_EXPECTED_NAME_AFTER_PLAN)
        nextToken
        modify (fun s => { s with nameStack := s.nameStack ++ [name] })
        let parameters ← run n .parameterList >>= asExprs
        let returnType ←
          if (← get).currentToken = .TOKEN_RSHIFT then do
            nextToken
            let t ← run n .parameterType >>= asExpr
            pure (some t)
          else pure (Option.none : Option PExpr)
        assertToken .TOKEN_LC
        nextToken
        let block ← run n (.parse .TOKEN_RC false) >>= asExpr
        nextToken
        modify (fun s => { s with nameStack := s.nameStack.dropLast })
        let p ← Pos
        -- The source calls factory.Plan without the `actor` argument declared
        -- in the factory interface (an interface/caller mismatch in the
        -- repository); the flag is modelled as false.
        let d ← addDefinition (F.Plan name parameters block returnType false start (p - start))
        pure (.expr d)
    | .nodeDefinition => do
        let start := (← get).tokenStartPos
        nextToken
        let hosts ← run n .hostnames >>= asExprs
        let nodeParent ←
          if (← get).currentToken = .TOKEN_INHERITS then do
            nextToken
            let h ← run n .hostname >>= asExpr
            pure (some h)
          else pure (Option.none : Option PExpr)
        assertToken .TOKEN_LC
        nextToken
        let block ← run n (.parse .TOKEN_RC false) >>= asExpr
        nextToken
        let p ← Pos
        let d ← addDefinition (F.Node hosts nodeParent block start (p - start))
        pure (.expr d)
    | .hostnames => do
        let h ← run n .hostname >>= asExpr
        if (← get).currentToken ≠ .TOKEN_COMMA then pure (.exprs [h])
        else do
          nextToken
          let s ← get
          if s.currentToken = .TOKEN_INHERITS ∨ s.currentToken = .TOKEN_LC then
            pure (.exprs [h])
          else do
            let rest ← run n .hostnames >>= asExprs
            pure (.exprs (h :: rest))
    | .hostname => do
        let s ← get
        let start := s.tokenStartPos
        match s.currentToken with
        | .TOKEN_IDENTIFIER | .TOKEN_TYPE_NAME | .TOKEN_INTEGER | .TOKEN_FLOAT =>
            run n .dottedName
        | .TOKEN_REGEXP => do
            let ts ← tokenString
            let p ← Pos
            let e := F.Regexp ts start (p - start)
            nextToken
            pure (.expr e)
        | .TOKEN_STRING => do
            let ts ← tokenString
            let p ← Pos
            let e := F.String ts start (p - start)
            nextToken
            pure (.expr e)
        | .TOKEN_DEFAULT => do
            let p ← Pos
            let e := F.Default start (p - start)
            nextToken
            pure (.expr e)
        | .TOKEN_CONCATENATED_STRING | .TOKEN_HEREDOC => do
            match s.tokenValue with
            | .expr e => do
                nextToken
                pure (.expr e)
            | _ => throw (.other "Expression type assertion")
        | _ => throw (.reported .PARSE_EXPECTED_HOSTNAME)
    | .dottedName => do
        let start := (← get).tokenStartPos
        run n (.dottedNames start [])
    | .dottedNames start names => do
        let s ← get
        let names ←
          match s.currentToken with
          | .TOKEN_IDENTIFIER | .TOKEN_TYPE_NAME => do
              let ts ← tokenString
              pure (names ++ [ts])
          | .TOKEN_INTEGER =>
              (match s.tokenValue with
               | .int v _ => pure (names ++ [toString v])
               | _ => throw (.other "int64 type assertion"))
          | .TOKEN_FLOAT =>
              (match s.tokenValue with
               | .float v => pure (names ++ [ratToString v])
               | _ => throw (.other "float64 type assertion"))
          | _ => throw (.reported .PARSE_EXPECTED_NAME_OR_NUMBER_AFTER_DOT)
        nextToken
        if (← get).currentToken ≠ .TOKEN_DOT then do
          let p ← Pos
          pure (.expr (F.String (String.intercalate "." names) start (p - start)))
        else do
          nextToken
          run n (.dottedNames start names)
    | .parameterList => do
        let s ← get
        match s.currentToken with
        | .TOKEN_LP | .TOKEN_WSLP => do
            nextToken
            run n (.expressions .TOKEN_RP .parameter)
        | _ => pure (.exprs [])
    | .lambdaParameterList => do
        nextToken
        run n (.expressions .TOKEN_PIPE_END .parameter)
    | .parameter => do
        let start := (← get).tokenStartPos
        let typeExpr ←
          if (← get).currentToken = .TOKEN_TYPE_NAME then do
            let t ← run n .parameterType >>= asExpr
            pure (some t)
          else pure (Option.none : Option PExpr)
        let capturesRest := (← get).currentToken = .TOKEN_MULTIPLY
        if capturesRest then nextToken
        let s ← get
        if s.currentToken ≠ .TOKEN_VARIABLE then
          throw (.reported .PARSE_EXPECTED_VARIABLE)
        else
          match s.tokenValue with
          | .str varName => do
              nextToken
              let defaultExpression ←
                if (← get).currentToken = .TOKEN_ASSIGN then do
                  nextToken
                  let e ← run n .expression >>= asExpr
                  pure (some e)
                else pure (Option.none : Option PExpr)
              let p ← Pos
              pure (.expr (F.Parameter varName defaultExpression typeExpr capturesRest
                start (p - start)))
          | _ => throw (.reported .PARSE_EXPECTED_VARIABLE)
    | .parameterType => do
        let start := (← get).tokenStartPos
        let tn ← typeName
        match tn with
        | Option.none => throw (.reported .PARSE_EXPECTED_TYPE_NAME)
        | some tname =>
            if (← get).currentToken = .TOKEN_LB then do
              nextToken
              let typeArgs ← run n .arrayExpression >>= asExprs
              let p ← Pos
              pure (.expr (F.Access tname typeArgs start (p - start)))
            else pure (.expr tname)
    | .classExpression start => do
        let name0 ← className
        let name := if name0.startsWith "::" then name0.drop 2 else name0
        modify (fun s => { s with nameStack := s.nameStack ++ [name] })
        let params ← run n .parameterList >>= asExprs
        let parent ←
          if (← get).currentToken = .TOKEN_INHERITS then do
            nextToken
            if (← get).currentToken = .TOKEN_DEFAULT then do
              nextToken
              pure (tokenMap .TOKEN_DEFAULT)
            else className
          else pure ""
        assertToken .TOKEN_LC
        nextToken
        let body ← run n (.parse .TOKEN_RC false) >>= asExpr
        nextToken
        modify (fun s => { s with nameStack := s.nameStack.dropLast })
        let s ← get
        let p ← Pos
        let d ← addDefinition
          (F.Class (qualifiedNameJoin s name) params parent body start (p - start))
        pure (.expr d)
    | .capabilityMapping component kind => do
        let start := (← get).tokenStartPos
        nextToken
        let capName ← className
        assertToken .TOKEN_LC
        nextToken
        let mappings ← run n .attributeOperations >>= asExprs
        assertToken .TOKEN_RC
        nextToken
        let component ←
          match component.getKind with
          | .QualifiedReference _ _ | .QualifiedName _ => pure component
          | .ReservedWord word _ => do
              let s ← get
              pure (F.QualifiedName (qualifiedNameJoin s word)
                component.byteOffset component.byteLength)
          | _ => pure component
        let s ← get
        let p ← Pos
        let d ← addDefinition
          (F.CapabilityMapping kind component (qualifiedNameJoin s capName) mappings
            start (p - start))
        pure (.expr d)
    | .siteDefinition => do
        let start := (← get).tokenStartPos
        nextToken
        assertToken .TOKEN_LC
        nextToken
        let block ← run n (.parse .TOKEN_RC false) >>= asExpr
        nextToken
        let p ← Pos
        let d ← addDefinition (F.Site block start (p - start))
        pure (.expr d)
    | .resourceDefinition resourceToken => do
        let start := (← get).tokenStartPos
        nextToken
        let name ← className
        let params ← run n .parameterList >>= asExprs
        assertToken .TOKEN_LC
        nextToken
        let body ← run n (.parse .TOKEN_RC false) >>= asExpr
        nextToken
        let p ← Pos
        let d :=
          if resourceToken = .TOKEN_APPLICATION then
            F.Application name params body start (p - start)
          else
            F.Definition name params body start (p - start)
        let d2 ← addDefinition d
        pure (.expr d2)

/-! ## Top level: `Parse` and `parseTopExpression` -/

/-- Named wrapper for the `parse` production. -/
def parseM (fuel : Nat) (expectedEnd : TokenKind) (single : Bool) : PM PExpr :=
  run fuel (.parse expectedEnd single) >>= asExpr

/-- Named wrapper for the `relationship` production. -/
def relationshipM (fuel : Nat) : PM PExpr :=
  run fuel .relationship >>= asExpr

/-- Named wrapper for the `expression` production. -/
def expressionM (fuel : Nat) : PM PExpr :=
  run fuel .expression >>= asExpr

/-- Named wrapper for the `unaryExpression` production. -/
def unaryExpressionM (fuel : Nat) : PM PExpr :=
  run fuel .unaryExpression >>= asExpr

/-- Named wrapper for the `resourceExpression` production. -/
def resourceExpressionM (fuel : Nat) (start : Nat) (first : PExpr) (form : ResourceForm) :
    PM PExpr :=
  run fuel (.resourceExpression start first form) >>= asExpr

/-- Named wrapper for the `hashExpression` production. -/
def hashExpressionM (fuel : Nat) : PM (List PExpr) :=
  run fuel .hashExpression >>= asExprs

/-- Named wrapper for the `attributeOperations` production. -/
def attributeOperationsM (fuel : Nat) : PM (List PExpr) :=
  run fuel .attributeOperations >>= asExprs

/-- The initial context state built by `Parse` for a source and its token
stream: reset reader, empty definition list. -/
def initState (src : List Char) (toks : List Tok) : PState :=
  { src := src, toks := toks, currentToken := .TOKEN_END, tokenValue := .none,
    tokenStartPos := 0, radix := 10, pos := 0, definitions := [], nameStack := [] }

/-- The body guarded by the `recover` of `parseTopExpression` (non-EPP mode:
advance to the first token, then parse up to `TOKEN_END`). -/
def parseTopBody (fuel : Nat) (single : Bool) : PM PExpr := do
  nextToken
  parseM fuel .TOKEN_END single

/-- `parseTopExpression`: run the parse, catching structured issues
(`issue.Reported` and `*ParseError`) and converting them into an error
result; any other panic propagates. -/
def parseTopExpression (fuel : Nat) (s0 : PState) (single : Bool) :
    Except PanicVal (Except IssueCode PExpr × PState) :=
  match (parseTopBody fuel single).run s0 with
  | .ok (e, s') => .ok (.ok e, s')
  | .error (.reported code) => .ok (.error code, s0)
  | .error (.parseError code) => .ok (.error code, s0)
  | .error pv => .error pv

/-- `Parse`: parse a source (given with its token stream).  On success in
non-single-expression mode the body is wrapped in a `Program` carrying the
collected definitions; an error result carries no expression; a
non-structured panic propagates (outer `.error`). -/
def Parse (src : List Char) (toks : List Tok) (single : Bool) (fuel : Nat) :
    Except PanicVal (Except IssueCode PExpr) :=
  match parseTopExpression fuel (initState src toks) single with
  | .ok (.ok e, s') =>
      if single then .ok (.ok e)
      else .ok (.ok (F.Program e s'.definitions 0 s'.pos))
  | .ok (.error code, _) => .ok (.error code)
  | .error pv => .error pv

/-! ## Derived span and definition-list observations -/

/-- The direct child nodes of an AST node (sub-expressions in lists and
options included), for span bookkeeping. -/
def childrenOf (e : PExpr) : List PExpr :=
  match e.getKind with
  | .LiteralList els => els
  | .CommaSeparatedList els => els
  | .LiteralHash els => els
  | .ConcatenatedString els => els
  | .HeredocExpression _ t => [t]
  | .UnaryMinusExpression x => [x]
  | .NotExpression x => [x]
  | .UnfoldExpression x => [x]
  | .ParenthesizedExpression x => [x]
  | .TextExpression x => [x]
  | .VariableExpression x => [x]
  | .RenderExpression x => [x]
  | .AndExpression a b => [a, b]
  | .OrExpression a b => [a, b]
  | .InExpression a b => [a, b]
  | .ComparisonExpression _ a b => [a, b]
  | .ArithmeticExpression _ a b => [a, b]
  | .MatchExpression _ a b => [a, b]
  | .AssignmentExpression _ a b => [a, b]
  | .RelationshipExpression _ a b => [a, b]
  | .NamedAccessExpression a b => [a, b]
  | .AccessExpression op keys => op :: keys
  | .BlockExpression els => els
  | .KeyedEntry a b => [a, b]
  | .AttributeOperation _ _ v => [v]
  | .AttributesOperation v => [v]
  | .SelectorExpression l sels => l :: sels
  | .SelectorEntry a b => [a, b]
  | .CaseExpression t opts => t :: opts
  | .CaseOption vs t => vs ++ [t]
  | .IfExpression a b c => [a, b, c]
  | .UnlessExpression a b c => [a, b, c]
  | .CallNamedFunctionExpression _ f args lam => f :: args ++ lam.toList
  | .CallMethodExpression _ f args lam => f :: args ++ lam.toList
  | .LambdaExpression ps b rt => ps ++ [b] ++ rt.toList
  | .EppExpression _ b => [b]
  | .ResourceExpression _ tn bs => tn :: bs
  | .ResourceBody t ops => t :: ops
  | .ResourceDefaultsExpression _ tr ops => tr :: ops
  | .ResourceOverrideExpression _ r ops => r :: ops
  | .CollectExpression rt q ops => rt :: q :: ops
  | .VirtualQuery q => [q]
  | .ExportedQuery q => [q]
  | .HostClassDefinition _ ps _ b => ps ++ [b]
  | .ResourceTypeDefinition _ ps b => ps ++ [b]
  | .Application _ ps b => ps ++ [b]
  | .NodeDefinition par hm b => par.toList ++ hm ++ [b]
  | .SiteDefinition b => [b]
  | .FunctionDefinition _ ps b rt => ps ++ [b] ++ rt.toList
  | .PlanDefinition _ ps b rt _ => ps ++ [b] ++ rt.toList
  | .TypeAlias _ t => [t]
  | .TypeDefinition _ _ b => [b]
  | .TypeMapping t m => [t, m]
  | .CapabilityMapping _ _ c ms => c :: ms
  | .Parameter _ v t _ => v.toList ++ t.toList
  | .Program b defs => b :: defs
  | .ActionDefinition _ _ _ ps b rt => ps ++ [b] ++ rt.toList
  | .MultiActionDefinition _ ips ivs a => ips ++ ivs ++ [a]
  | _ => []

/-- Whether a child's span is contained in its parent's span. -/
def spanWithin (parent child : PExpr) : Bool :=
  decide (parent.byteOffset ≤ child.byteOffset) &&
  decide (child.byteOffset + child.byteLength ≤ parent.byteOffset + parent.byteLength)

/-- Whether every node of the tree (to the given depth) has its span
contained in its parent's span. -/
def spanInvariant : Nat → PExpr → Bool
  | 0, _ => true
  | d+1, e => (childrenOf e).all (fun c => spanWithin e c && spanInvariant d c)

/-- The definition list of a `Program` node (empty for other nodes). -/
def defsOf (e : PExpr) : List PExpr :=
  match e.getKind with
  | .Program _ defs => defs
  | _ => []

/-- A short tag for a definition node variant (used to state
source-order registration on concrete runs). -/
def defTag (e : PExpr) : String :=
  match e.getKind with
  | .HostClassDefinition name _ _ _ => "class " ++ name
  | .ResourceTypeDefinition name _ _ => "define " ++ name
  | .Application name _ _ => "application " ++ name
  | .NodeDefinition _ _ _ => "node"
  | .SiteDefinition _ => "site"
  | .FunctionDefinition name _ _ _ => "function " ++ name
  | .PlanDefinition name _ _ _ _ => "plan " ++ name
  | .TypeAlias name _ => "typealias " ++ name
  | .TypeDefinition name _ _ => "typedef " ++ name
  | .TypeMapping _ _ => "typemapping"
  | .CapabilityMapping _ _ _ _ => "capabilitymapping"
  | _ => "other"

/-- Whether a node is a `*QualifiedName` (of any name). -/
def isQualifiedName (e : PExpr) : Bool :=
  match e.getKind with
  | .QualifiedName _ => true
  | _ => false

/-- Whether a node is a `*QualifiedReference`. -/
def isQualifiedReference (e : PExpr) : Bool :=
  match e.getKind with
  | .QualifiedReference _ _ => true
  | _ => false

/-- Whether a node is an `*AccessExpression`. -/
def isAccessExpression (e : PExpr) : Bool :=
  match e.getKind with
  | .AccessExpression _ _ => true
  | _ => false

/-! ## Runner lemmas for the parser monad -/

theorem pm_bind_run {α β : Type} (x : PM α) (f : α → PM β) (s : PState) :
    (x >>= f).run s =
      match x.run s with
      | .ok (a, s') => (f a).run s'
      | .error e => .error e := by
  change Except.bind (x.run s) _ = _
  cases x.run s with
  | ok p => rfl
  | error e => rfl

theorem pm_pure_run {α : Type} (a : α) (s : PState) :
    (pure a : PM α).run s = .ok (a, s) := rfl

theorem pm_get_run (s : PState) : (get : PM PState).run s = .ok (s, s) := rfl

theorem pm_set_run (s' s : PState) : (set s' : PM Unit).run s = .ok ((), s') := rfl

theorem pm_throw_run {α : Type} (e : PanicVal) (s : PState) :
    (throw e : PM α).run s = .error e := rfl

theorem pm_modify_run (f : PState → PState) (s : PState) :
    (modify f : PM Unit).run s = .ok ((), f s) := rfl

theorem nextToken_run (s : PState) : nextToken.run s = .ok ((), nextTokState s) := rfl

theorem Pos_run (s : PState) : Pos.run s = .ok (s.pos, s) := rfl

theorem SetPos_run (p : Nat) (s : PState) :
    (SetPos p).run s = .ok ((), { s with pos := p }) := rfl

theorem setToken_run (k : TokenKind) (s : PState) :
    (setToken k).run s = .ok ((), { s with currentToken := k, tokenValue := .none }) := rfl

theorem setTokenValue_run (k : TokenKind) (v : TVal) (s : PState) :
    (setTokenValue k v).run s = .ok ((), { s with currentToken := k, tokenValue := v }) := rfl

theorem Peek_run (s : PState) :
    Peek.run s = .ok (s.src.getD s.pos (Char.ofNat 0), s) := rfl

theorem assertToken_run_pos (t : TokenKind) (s : PState) (h : s.currentToken = t) :
    (assertToken t).run s = .ok ((), s) := by
  unfold assertToken
  rw [pm_bind_run, pm_get_run]
  simp only [h, if_pos rfl]
  rfl

theorem assertToken_run_neg (t : TokenKind) (s : PState) (h : s.currentToken ≠ t) :
    (assertToken t).run s = .error (.reported .PARSE_EXPECTED_TOKEN) := by
  unfold assertToken
  rw [pm_bind_run, pm_get_run]
  simp [h, pm_bind_run, pm_set_run, pm_throw_run]

/-! ## Claims -/

/-- Claim C1: in a block, a `QualifiedName` statement in the statement-call
set followed by a statement that is not a `KeyedEntry` is merged by the
transformation scan into one named-function call whose functor is the name
and whose arguments are the following statement itself (its `rvalRequired`
flag raised when it is a named call) or its elements when it is a
comma-separated list; the merged call carries `rvalRequired = false`, and in
terminal position the merged call is the whole transformed block.  (The
source's merge test does not actually inspect the follower for `KeyedEntry`;
the hypothesis is carried from the claim and is simply unused.) -/
theorem claim1_statement_call_merge
    (nm : String) (off len : Nat) (arg : PExpr) (rest : List PExpr)
    (hname : statementCalls nm = true)
    (_hkeyed : isKeyedEntry arg = false) :
    (transformCallsScan (F.QualifiedName nm off len) (arg :: rest)).1 =
      mergedStatementCall (F.QualifiedName nm off len) arg ::
        (match rest with
         | [] => []
         | m2 :: rest2 => (transformCallsScan m2 rest2).1) ∧
    mergedStatementCall (F.QualifiedName nm off len) arg =
      F.CallNamed (F.QualifiedName nm off len) false
        (match arg.getKind with
         | .CommaSeparatedList els => els
         | _ => [setRvalRequired true arg])
        Option.none off ((arg.byteOffset + arg.byteLength) - off) ∧
    rvalRequiredOf (mergedStatementCall (F.QualifiedName nm off len) arg) = false ∧
    transformCalls [F.QualifiedName nm off len, arg] 0 =
      .ok [mergedStatementCall (F.QualifiedName nm off len) arg] := by
  refine ⟨?_, ?_, ?_, ?_⟩
  · cases rest <;>
      simp [transformCallsScan, isStatementCallName, F.QualifiedName, PExpr.getKind, hname]
  · rfl
  · rfl
  · simp [transformCalls, transformCallsScan, isStatementCallName, F.QualifiedName,
      PExpr.getKind, hname]

/-- Witness for C1 at `notice 42`. -/
theorem claim1_witness :
    transformCalls [F.QualifiedName "notice" 0 6, .mk (.LiteralInteger 10 42) 7 2] 0 =
      .ok [mergedStatementCall (F.QualifiedName "notice" 0 6)
            (.mk (.LiteralInteger 10 42) 7 2)] :=
  (claim1_statement_call_merge "notice" 0 6 (.mk (.LiteralInteger 10 42) 7 2) [] rfl
    rfl).2.2.2

/-- A comma-separated list `1, 2` as produced by `syntacticStatement` for an
extraneous comma between statements. -/
def c8csl : PExpr :=
  .mk (.CommaSeparatedList [.mk (.LiteralInteger 10 1) 0 1, .mk (.LiteralInteger 10 2) 3 1]) 0 4

/-- Claim C8 counterexample: with statements `[1, 2] ; notice ; 3` the block
transformation takes the early return after merging `notice 3` and never
runs the extraneous-comma check, so `transformCalls` succeeds and the
returned block still contains the unconsumed comma-separated list —
contradicting the claim that such a parse always fails with
`PARSE_EXTRANEOUS_COMMA` and that a block containing an unconsumed
comma-separated statement list is never returned. -/
theorem claim8_counterexample :
    transformCalls [c8csl, F.QualifiedName "notice" 5 6, .mk (.LiteralInteger 10 3) 12 1] 0 =
      .ok [c8csl,
        mergedStatementCall (F.QualifiedName "notice" 5 6) (.mk (.LiteralInteger 10 3) 12 1)] ∧
    isCommaSeparatedList c8csl = true :=
  ⟨rfl, rfl⟩

/-- Claim C8 (amended): when the transformation scan does not end with a
terminal statement-call merge (the early-return path, which skips the
check), a successful `transformCalls` result contains no comma-separated
list, and a scan result still containing one makes the parse fail with
`PARSE_EXTRANEOUS_COMMA`. -/
theorem claim8_amended :
    (∀ (exprs res : List PExpr) (start : Nat),
      transformCalls exprs start = .ok res →
      (∀ e ∈ res, isCommaSeparatedList e = false) ∨
      (∃ memo rest, exprs = memo :: rest ∧ (transformCallsScan memo rest).2 = true)) ∧
    (∀ (memo : PExpr) (rest : List PExpr) (start : Nat),
      (transformCallsScan memo rest).2 = false →
      (transformCallsScan memo rest).1.any isCommaSeparatedList = true →
      transformCalls (memo :: rest) start = .error (.reported .PARSE_EXTRANEOUS_COMMA)) := by
  constructor
  · intro exprs res start h
    cases exprs with
    | nil =>
        left
        simp only [transformCalls] at h
        cases h
        intro e he
        cases he
    | cons memo rest =>
        rcases hscan : transformCallsScan memo rest with ⟨result, flag⟩
        simp only [transformCalls, hscan] at h
        cases flag with
        | true =>
            right
            exact ⟨memo, rest, rfl, by rw [hscan]⟩
        | false =>
            by_cases hany : result.any isCommaSeparatedList
            · simp [hany] at h
            · left
              simp only [hany, if_neg, Bool.false_eq_true, ite_false] at h
              cases h
              intro e he
              have := (List.any_eq_false).mp (Bool.eq_false_iff.mpr hany) e he
              simpa using this
  · intro memo rest start h2 h3
    rcases hscan : transformCallsScan memo rest with ⟨result, flag⟩
    rw [hscan] at h2 h3
    simp only at h2 h3
    subst h2
    simp only [transformCalls, hscan, h3, ite_true]

/-- Witness for the amended C8: `[1, 2] ; 3` (no terminal merge) fails with
`PARSE_EXTRANEOUS_COMMA`. -/
theorem claim8_witness :
    transformCalls [c8csl, .mk (.LiteralInteger 10 3) 12 1] 0 =
      .error (.reported .PARSE_EXTRANEOUS_COMMA) :=
  claim8_amended.2 c8csl [.mk (.LiteralInteger 10 3) 12 1] 0 rfl rfl

/-- Claim C4: every parse either succeeds with an expression, or returns a
structured issue as the error result with no expression alongside it, or
propagates a panic that is not a structured issue — i.e. the `recover` in
`parseTopExpression` catches every structured issue raised at any depth and
`Parse` never propagates one as a panic, and no (partial) AST accompanies an
error result. -/
theorem claim4_error_containment (src : List Char) (toks : List Tok) (single : Bool)
    (fuel : Nat) :
    (∃ e, Parse src toks single fuel = .ok (.ok e)) ∨
    (∃ code, Parse src toks single fuel = .ok (.error code)) ∨
    (∃ pv, Parse src toks single fuel = .error pv ∧ pv.isStructured = false) := by
  unfold Parse parseTopExpression
  cases h : (parseTopBody fuel single).run (initState src toks) with
  | ok p =>
      obtain ⟨e, s'⟩ := p
      by_cases hs : single
      · left
        exact ⟨e, by simp [hs]⟩
      · left
        exact ⟨F.Program e s'.definitions 0 s'.pos, by simp [hs]⟩
  | error pv =>
      cases pv with
      | reported code =>
          right; left
          exact ⟨code, rfl⟩
      | parseError code =>
          right; left
          exact ⟨code, rfl⟩
      | other m =>
          right; right
          exact ⟨.other m, rfl, rfl⟩
      | fuel =>
          right; right
          exact ⟨.fuel, rfl, rfl⟩

/-- Claim C2: the resource-shape discrimination of a primary before `{`: a
`QualifiedName` is classified `resource`, a `QualifiedReference` `defaults`,
an `AccessExpression` on the reference `Resource` with exactly one key
`defaults`, any other `AccessExpression` `override`, and everything else
`error` — in which case `resourceExpression` restores the `{` token (current
token set back to `TOKEN_LC`, reader back to the position before the brace
group's contents) and returns the primary unchanged, so the outer grammar
reparses the braces as a hash literal. -/
theorem claim2_resource_shape :
    (∀ nm off len, resourceShape (F.QualifiedName nm off len) = "resource") ∧
    (∀ nm off len, resourceShape (F.QualifiedReference nm off len) = "defaults") ∧
    (∀ dn o2 l2 k off len,
      resourceShape
        (.mk (.AccessExpression (.mk (.QualifiedReference "Resource" dn) o2 l2) [k]) off len) =
        "defaults") ∧
    (∀ operand keys off len,
      (match operand.getKind with
       | .QualifiedReference nm _ => nm = "Resource" → keys.length ≠ 1
       | _ => True) →
      resourceShape (.mk (.AccessExpression operand keys) off len) = "override") ∧
    (∀ e, isQualifiedName e = false → isQualifiedReference e = false →
      isAccessExpression e = false → resourceShape e = "error") ∧
    (∀ (n : Nat) (s : PState) (start : Nat) (first : PExpr) (form : ResourceForm)
       (t : PExpr) (s2 : PState) (ops : List PExpr) (s4 : PState),
      (nextTokState s).currentToken ≠ .TOKEN_MULTIPLY →
      (run n Fn.expression).run (nextTokState s) = .ok (.expr t, s2) →
      s2.currentToken ≠ .TOKEN_COLON →
      resourceShape first = "defaults" →
      (run n Fn.attributeOperations).run (nextTokState { s2 with pos := s.pos }) =
        .ok (.exprs ops, s4) →
      s4.currentToken = .TOKEN_RC →
      (run (n+1) (Fn.resourceExpression start first form)).run s =
        .ok (.expr (F.ResourceDefaults form first ops start (s4.pos - start)),
          nextTokState s4)) ∧
    (∀ (n : Nat) (s : PState) (start : Nat) (first : PExpr) (form : ResourceForm)
       (t : PExpr) (s2 : PState) (ops : List PExpr) (s4 : PState),
      (nextTokState s).currentToken ≠ .TOKEN_MULTIPLY →
      (run n Fn.expression).run (nextTokState s) = .ok (.expr t, s2) →
      s2.currentToken ≠ .TOKEN_COLON →
      resourceShape first = "override" →
      (run n Fn.attributeOperations).run (nextTokState { s2 with pos := s.pos }) =
        .ok (.exprs ops, s4) →
      s4.currentToken = .TOKEN_RC →
      (run (n+1) (Fn.resourceExpression start first form)).run s =
        .ok (.expr (F.ResourceOverride form first ops start (s4.pos - start)),
          nextTokState s4)) ∧
    (∀ (n : Nat) (s : PState) (start : Nat) (first : PExpr) (form : ResourceForm)
       (t : PExpr) (s2 : PState),
      (nextTokState s).currentToken ≠ .TOKEN_MULTIPLY →
      (run n Fn.expression).run (nextTokState s) = .ok (.expr t, s2) →
      s2.currentToken ≠ .TOKEN_COLON →
      resourceShape first = "error" →
      (run (n+1) (Fn.resourceExpression start first form)).run s =
        .ok (.expr first,
          { s2 with pos := s.pos, currentToken := .TOKEN_LC, tokenValue := .none })) := by
  refine ⟨fun nm off len => rfl, fun nm off len => rfl, fun dn o2 l2 k off len => rfl,
    ?_, ?_, ?_, ?_, ?_⟩
  · intro operand keys off len h
    obtain ⟨k, o, l⟩ := operand
    cases k <;> simp_all [resourceShape, PExpr.getKind]
  · intro e h1 h2 h3
    obtain ⟨k, o, l⟩ := e
    cases k <;> first
      | rfl
      | simp_all [isQualifiedName, isQualifiedReference, isAccessExpression, PExpr.getKind]
  · intro n s start first form t s2 ops s4 h1 h2 h3 h4 h5 h6
    simp only [run]
    simp only [pm_bind_run, Pos_run, nextToken_run, pm_get_run, pm_pure_run, SetPos_run,
      setToken_run, h1, h2, h3, h4, asExpr, ite_true, ite_false, not_false_iff, ne_eq,
      not_true, String.reduceEq]
    simp only [pm_bind_run, SetPos_run, nextToken_run, h5, asExprs, pm_pure_run, Pos_run]
    rw [assertToken_run_pos .TOKEN_RC s4 h6]
  · intro n s start first form t s2 ops s4 h1 h2 h3 h4 h5 h6
    simp only [run]
    simp only [pm_bind_run, Pos_run, nextToken_run, pm_get_run, pm_pure_run, SetPos_run,
      setToken_run, h1, h2, h3, h4, asExpr, ite_true, ite_false, not_false_iff, ne_eq,
      not_true, String.reduceEq]
    simp only [pm_bind_run, SetPos_run, nextToken_run, h5, asExprs, pm_pure_run, Pos_run]
    rw [assertToken_run_pos .TOKEN_RC s4 h6]
  · intro n s start first form t s2 h1 h2 h3 h4
    simp only [run]
    simp only [pm_bind_run, Pos_run, nextToken_run, pm_get_run, pm_pure_run, SetPos_run,
      setToken_run, h1, h2, h3, h4, asExpr, ite_true, ite_false, if_neg, if_pos,
      not_false_iff, ne_eq, not_true]
    rfl

/-- Claim C3: when the primary before `{` is a `QualifiedName` (shape
`resource`) but no colon follows the first expression inside the braces:
if the name is a statement call, the brace group is reparsed as a hash
literal and the result is a named-function call on that name with the hash
as its single argument; for any other name the parse fails with
`PARSE_RESOURCE_WITHOUT_TITLE`. -/
theorem claim3_resource_without_title :
    (∀ (n : Nat) (s : PState) (start : Nat) (nm : String) (qoff qlen : Nat)
       (form : ResourceForm) (t : PExpr) (s2 : PState) (entries : List PExpr) (s3 : PState),
      statementCalls nm = true →
      (nextTokState s).currentToken ≠ .TOKEN_MULTIPLY →
      (run n Fn.expression).run (nextTokState s) = .ok (.expr t, s2) →
      s2.currentToken ≠ .TOKEN_COLON →
      (run n Fn.hashExpression).run (nextTokState { s2 with pos := s.pos }) =
        .ok (.exprs entries, s3) →
      (run (n+1) (Fn.resourceExpression start (F.QualifiedName nm qoff qlen) form)).run s =
        .ok (.expr (F.CallNamed (F.QualifiedName nm qoff qlen) true
              [F.Hash entries s.pos (s3.pos - s.pos)] Option.none start (s3.pos - start)),
          s3)) ∧
    (∀ (n : Nat) (s : PState) (start : Nat) (nm : String) (qoff qlen : Nat)
       (form : ResourceForm) (t : PExpr) (s2 : PState),
      statementCalls nm = false →
      (nextTokState s).currentToken ≠ .TOKEN_MULTIPLY →
      (run n Fn.expression).run (nextTokState s) = .ok (.expr t, s2) →
      s2.currentToken ≠ .TOKEN_COLON →
      (run (n+1) (Fn.resourceExpression start (F.QualifiedName nm qoff qlen) form)).run s =
        .error (.reported .PARSE_RESOURCE_WITHOUT_TITLE)) := by
  constructor
  · intro n s start nm qoff qlen form t s2 entries s3 hname h1 h2 h3 h4
    simp only [run]
    simp only [pm_bind_run, Pos_run, nextToken_run, pm_get_run, pm_pure_run, SetPos_run,
      setToken_run, h1, h2, h3, asExpr, ite_true, ite_false, not_false_iff, ne_eq, not_true]
    simp only [resourceShape, PExpr.getKind, F.QualifiedName]
    simp only [pm_bind_run, Pos_run, nextToken_run, pm_get_run, pm_pure_run, SetPos_run, h4,
      asExprs, hname, ite_true, F.CallNamed, F.Hash]
  · intro n s start nm qoff qlen form t s2 hname h1 h2 h3
    simp only [run]
    simp only [pm_bind_run, Pos_run, nextToken_run, pm_get_run, pm_pure_run, SetPos_run,
      setToken_run, h1, h2, h3, asExpr, ite_true, ite_false, not_false_iff, ne_eq, not_true]
    simp only [resourceShape, PExpr.getKind, F.QualifiedName]
    simp only [pm_bind_run, Pos_run, nextToken_run, pm_get_run, pm_pure_run, SetPos_run,
      pm_throw_run, hname, ite_true, ite_false, Bool.false_eq_true]

/-- Claim C5: `Parse` wraps the parsed body in a `Program` node exactly when
`singleExpression` is false; in single-expression mode the returned top node
is exactly what the parse produced unwrapped — namely the `relationship`
expression (with the end token then current), or an `Undef` literal when the
end token is already current (no expression before the end). -/
theorem claim5_program_wrapping :
    (∀ (src : List Char) (toks : List Tok) (fuel : Nat) (e : PExpr),
      Parse src toks false fuel = .ok (.ok e) → isProgram e = true) ∧
    (∀ (src : List Char) (toks : List Tok) (fuel : Nat) (e : PExpr),
      Parse src toks true fuel = .ok (.ok e) →
      ∃ s', (parseTopBody fuel true).run (initState src toks) = .ok (e, s')) ∧
    (∀ (m : Nat) (s : PState) (e : PExpr) (s' : PState),
      (parseM (m+1) .TOKEN_END true).run s = .ok (e, s') →
      (e = F.Undef (skipWhiteStart s) 0 ∧ s' = { s with pos := skipWhiteStart s }) ∨
      (∃ s3, (run m Fn.relationship).run { s with pos := skipWhiteStart s } =
          .ok (.expr e, s3) ∧ s' = s3 ∧ s3.currentToken = .TOKEN_END)) := by
  refine ⟨?_, ?_, ?_⟩
  · intro src toks fuel e h
    unfold Parse at h
    cases hp : parseTopExpression fuel (initState src toks) false with
    | ok p =>
        obtain ⟨r, s'⟩ := p
        cases r with
        | ok e0 =>
            rw [hp] at h
            simp only [Bool.false_eq_true, if_false, ite_false] at h
            cases h
            rfl
        | error code =>
            rw [hp] at h
            simp at h
    | error pv =>
        rw [hp] at h
        simp at h
  · intro src toks fuel e h
    unfold Parse parseTopExpression at h
    cases hb : (parseTopBody fuel true).run (initState src toks) with
    | ok p =>
        obtain ⟨e0, s'⟩ := p
        rw [hb] at h
        simp only [if_pos, ite_true] at h
        cases h
        exact ⟨s', rfl⟩
    | error pv =>
        rw [hb] at h
        cases pv <;> simp at h
  · intro m s e s' h
    unfold parseM at h
    simp only [run] at h
    simp only [pm_bind_run, pm_get_run, pm_pure_run, SetPos_run, ite_true, if_true] at h
    by_cases hEnd : s.currentToken = .TOKEN_END
    · left
      rw [if_pos hEnd] at h
      simp only [asExpr, pm_bind_run, pm_pure_run] at h
      cases h
      exact ⟨rfl, rfl⟩
    · right
      rw [if_neg hEnd] at h
      simp only [pm_bind_run] at h
      cases hx : (run m Fn.relationship).run { s with pos := skipWhiteStart s } with
      | error pv =>
          rw [hx] at h
          simp at h
      | ok p =>
          obtain ⟨r, s3⟩ := p
          rw [hx] at h
          cases r with
          | exprs es =>
              simp [asExpr, pm_bind_run, pm_throw_run] at h
          | expr e0 =>
              simp only [asExpr, pm_bind_run, pm_pure_run] at h
              by_cases hA : s3.currentToken = .TOKEN_END
              · rw [assertToken_run_pos .TOKEN_END s3 hA] at h
                simp only [pm_pure_run] at h
                cases h
                exact ⟨_, rfl, rfl, hA⟩
              · rw [assertToken_run_neg .TOKEN_END s3 hA] at h
                simp at h

/-- The token stream of the source `-5`. -/
def negFiveToks : List Tok :=
  [⟨.TOKEN_SUBTRACT, .none, 0, 1⟩, ⟨.TOKEN_INTEGER, .int 5 10, 1, 2⟩]

/-- The token stream of the source `- $x`. -/
def negVarToks : List Tok :=
  [⟨.TOKEN_SUBTRACT, .none, 0, 1⟩, ⟨.TOKEN_VARIABLE, .str "x", 2, 4⟩]

/-- Claim C6: when prefix `-` immediately precedes a decimal digit, the
parser negates the current numeric token's stored value in place and returns
the primary expression with only its offset and length updated — no negation
wrapper (`-5` parses to `LiteralInteger (-5)`); when `-` precedes anything
that is not a decimal digit, the parser returns a `UnaryMinusExpression`
wrapping the parsed primary (`- $x` parses to
`UnaryMinus (Variable (QualifiedName x))`). -/
theorem claim6_unary_minus :
    (∀ (n : Nat) (s : PState) (v : Int) (r : Nat) (t : PExpr) (s2 : PState),
      s.currentToken = .TOKEN_SUBTRACT →
      isDecimalDigit (s.src.getD s.pos (Char.ofNat 0)) = true →
      (nextTokState s).currentToken = .TOKEN_INTEGER →
      (nextTokState s).tokenValue = .int v r →
      (run n Fn.primaryExpression).run
          { nextTokState s with currentToken := .TOKEN_INTEGER, tokenValue := .int (-v) r } =
        .ok (.expr t, s2) →
      (run (n+1) Fn.unaryExpression).run s =
        .ok (.expr (t.updateOffsetAndLength s.tokenStartPos (s2.pos - s.tokenStartPos)), s2)) ∧
    (∀ (n : Nat) (s : PState) (t : PExpr) (s2 : PState),
      s.currentToken = .TOKEN_SUBTRACT →
      isDecimalDigit (s.src.getD s.pos (Char.ofNat 0)) = false →
      (run n Fn.primaryExpression).run (nextTokState s) = .ok (.expr t, s2) →
      (run (n+1) Fn.unaryExpression).run s =
        .ok (.expr (F.Negate t s.tokenStartPos (s2.pos - s.tokenStartPos)), s2)) ∧
    Parse "-5".toList negFiveToks true 20 =
      .ok (.ok (.mk (.LiteralInteger 10 (-5)) 0 2)) ∧
    Parse "- $x".toList negVarToks true 20 =
      .ok (.ok (.mk (.UnaryMinusExpression
        (.mk (.VariableExpression (.mk (.QualifiedName "x") 3 1)) 2 2)) 0 4)) := by
  refine ⟨?_, ?_, rfl, rfl⟩
  · intro n s v r t s2 h1 h2 h3 h4 h5
    simp only [run]
    simp only [pm_bind_run, pm_get_run, pm_pure_run, Peek_run, nextToken_run,
      setTokenValue_run, Pos_run, h1, h2, h3, h4, asExpr, ite_true, if_true]
    rw [h5]
    rfl
  · intro n s t s2 h1 h2 h3
    simp only [run]
    simp only [pm_bind_run, pm_get_run, pm_pure_run, Peek_run, nextToken_run,
      Pos_run, h1, h2, asExpr, Bool.false_eq_true, ite_false, if_false]
    rw [h3]
    rfl

/-- The statement loop of `parse` exits only with the expected end token
current. -/
theorem parseStmts_currentToken :
    ∀ (fuel : Nat) (endTok : TokenKind) (s : PState) (r : PRes) (s' : PState),
      (run fuel (Fn.parseStmts endTok)).run s = .ok (r, s') →
      s'.currentToken = endTok := by
  intro fuel
  induction fuel with
  | zero =>
      intro endTok s r s' h
      simp [run, pm_throw_run] at h
  | succ n ih =>
      intro endTok s r s' h
      simp only [run] at h
      simp only [pm_bind_run, pm_get_run, pm_pure_run] at h
      by_cases hEnd : s.currentToken = endTok
      · rw [if_pos hEnd] at h
        cases h
        exact hEnd
      · rw [if_neg hEnd] at h
        simp only [pm_bind_run] at h
        cases h1 : (run n Fn.syntacticStatement).run s with
        | error pv =>
            rw [h1] at h
            simp at h
        | ok p =>
            obtain ⟨r1, s1⟩ := p
            rw [h1] at h
            cases r1 with
            | exprs es =>
                simp [asExpr, pm_throw_run] at h
            | expr e1 =>
                simp only [asExpr, pm_pure_run, pm_bind_run, pm_get_run, nextToken_run] at h
                by_cases hsemi : s1.currentToken = .TOKEN_SEMICOLON
                · rw [if_pos hsemi] at h
                  simp only [nextToken_run, pm_bind_run] at h
                  cases h2 : (run n (Fn.parseStmts endTok)).run (nextTokState s1) with
                  | error pv =>
                      rw [h2] at h
                      simp at h
                  | ok q =>
                      obtain ⟨r2, s2⟩ := q
                      rw [h2] at h
                      cases r2 with
                      | expr e2 => simp [asExprs, pm_throw_run] at h
                      | exprs es2 =>
                          simp only [asExprs, pm_pure_run, pm_bind_run] at h
                          cases h
                          exact ih endTok (nextTokState s1) (.exprs es2) s' h2
                · rw [if_neg hsemi] at h
                  simp only [pm_pure_run, pm_bind_run] at h
                  cases h2 : (run n (Fn.parseStmts endTok)).run s1 with
                  | error pv =>
                      rw [h2] at h
                      simp at h
                  | ok q =>
                      obtain ⟨r2, s2⟩ := q
                      rw [h2] at h
                      cases r2 with
                      | expr e2 => simp [asExprs, pm_throw_run] at h
                      | exprs es2 =>
                          simp only [asExprs, pm_pure_run, pm_bind_run] at h
                          cases h
                          exact ih endTok s1 (.exprs es2) s' h2

/-- A successful non-single-expression `parse` leaves the expected end token
current. -/
theorem parse_currentToken (fuel : Nat) (endTok : TokenKind) (s : PState) (r : PRes)
    (s' : PState) (h : (run fuel (Fn.parse endTok false)).run s = .ok (r, s')) :
    s'.currentToken = endTok := by
  cases fuel with
  | zero => simp [run, pm_throw_run] at h
  | succ n =>
      simp only [run] at h
      simp only [pm_bind_run, pm_get_run, pm_pure_run, SetPos_run, Bool.false_eq_true,
        ite_false, if_false] at h
      cases h1 : (run n (Fn.parseStmts endTok)).run { s with pos := skipWhiteStart s } with
      | error pv =>
          rw [h1] at h
          simp at h
      | ok p =>
          obtain ⟨r1, s1⟩ := p
          rw [h1] at h
          cases r1 with
          | expr e1 => simp [asExprs, pm_throw_run] at h
          | exprs es =>
              simp only [asExprs, pm_pure_run, pm_bind_run] at h
              cases h2 : transformCalls es (skipWhiteStart s) with
              | error pv =>
                  rw [h2] at h
                  simp [pm_throw_run] at h
              | ok ts =>
                  rw [h2] at h
                  simp only [pm_bind_run, Pos_run, pm_pure_run] at h
                  cases h
                  exact parseStmts_currentToken n endTok _ (.exprs es) s' h1

/-- The token stream of the source `1 2`. -/
def c7toks : List Tok :=
  [⟨.TOKEN_INTEGER, .int 1 10, 0, 1⟩, ⟨.TOKEN_INTEGER, .int 2 10, 2, 3⟩]

/-- The AST produced for the source `1 2`: the block records its start after
skipping past the already-scanned first statement, so its span starts after
its first child's. -/
def c7prog : PExpr :=
  .mk (.Program
    (.mk (.BlockExpression
      [.mk (.LiteralInteger 10 1) 0 2, .mk (.LiteralInteger 10 2) 2 1]) 2 1) []) 0 3

/-- Claim C7 counterexample: the successful parse of `1 2` produces a tree in
which a node's span is not contained in its parent's span (the block node
spans `[2,3)` while its first statement spans `[0,2)`), refuting the claim
that every node's span is contained within its parent's for every successful
parse. -/
theorem claim7_counterexample :
    Parse "1 2".toList c7toks false 50 = .ok (.ok c7prog) ∧
    spanInvariant 5 c7prog = false :=
  ⟨rfl, rfl⟩

/-- Claim C7 (amended): for every successful non-single-expression parse the
root is a `Program` node whose span starts at byte 0 and ends at the
parser's final reading position, reached with the end token current (on the
example source this is exactly `[0, len(source))`); per-node span
containment does not hold in general. -/
theorem claim7_amended :
    (∀ (src : List Char) (toks : List Tok) (fuel : Nat) (e : PExpr),
      Parse src toks false fuel = .ok (.ok e) →
      ∃ body s', (parseTopBody fuel false).run (initState src toks) = .ok (body, s') ∧
        e = F.Program body s'.definitions 0 s'.pos ∧
        s'.currentToken = .TOKEN_END) ∧
    c7prog.byteOffset = 0 ∧
    c7prog.byteLength = ("1 2".toList).length := by
  refine ⟨?_, rfl, rfl⟩
  intro src toks fuel e h
  unfold Parse parseTopExpression at h
  cases hb : (parseTopBody fuel false).run (initState src toks) with
  | error pv =>
      rw [hb] at h
      cases pv <;> simp at h
  | ok p =>
      obtain ⟨body, s'⟩ := p
      rw [hb] at h
      simp only [Bool.false_eq_true, if_false, ite_false] at h
      cases h
      refine ⟨body, s', rfl, rfl, ?_⟩
      have hb2 : (parseTopBody fuel false).run (initState src toks) = .ok (body, s') := hb
      unfold parseTopBody parseM at hb2
      simp only [pm_bind_run, nextToken_run] at hb2
      cases hi : (run fuel (Fn.parse .TOKEN_END false)).run
          (nextTokState (initState src toks)) with
      | error pv =>
          rw [hi] at hb2
          simp at hb2
      | ok q =>
          obtain ⟨r1, s1⟩ := q
          rw [hi] at hb2
          cases r1 with
          | exprs es => simp [asExpr, pm_throw_run] at hb2
          | expr e1 =>
              simp only [asExpr, pm_pure_run] at hb2
              cases hb2
              exact parse_currentToken fuel .TOKEN_END _ _ _ hi

/-- Witness for the amended C7 at the source `1 2`. -/
theorem claim7_witness :
    ∃ body s',
      (parseTopBody 50 false).run (initState "1 2".toList c7toks) = .ok (body, s') ∧
      c7prog = F.Program body s'.definitions 0 s'.pos ∧
      s'.currentToken = .TOKEN_END :=
  claim7_amended.1 "1 2".toList c7toks 50 c7prog rfl

/-- The token stream of `class a { } site { } type X = Integer`. -/
def c9toks : List Tok :=
  [⟨.TOKEN_CLASS, .none, 0, 5⟩, ⟨.TOKEN_IDENTIFIER, .str "a", 6, 7⟩,
   ⟨.TOKEN_LC, .none, 8, 9⟩, ⟨.TOKEN_RC, .none, 10, 11⟩,
   ⟨.TOKEN_SITE, .none, 12, 16⟩, ⟨.TOKEN_LC, .none, 17, 18⟩, ⟨.TOKEN_RC, .none, 19, 20⟩,
   ⟨.TOKEN_TYPE, .none, 21, 25⟩, ⟨.TOKEN_TYPE_NAME, .str "X", 26, 27⟩,
   ⟨.TOKEN_ASSIGN, .none, 28, 29⟩, ⟨.TOKEN_TYPE_NAME, .str "Integer", 30, 37⟩]

set_option maxRecDepth 10000 in
/-- Claim C9: `addDefinition` appends the node to the parser's definition
list and returns that same node; a successful non-single-expression `Parse`
attaches exactly the accumulated definition list to the returned `Program`;
and on a source declaring a class, a site and a type alias the program's
definition list holds them in source order. -/
theorem claim9_definition_registration :
    (∀ (e : PExpr) (s : PState), isDefinition e = true →
      (addDefinition e).run s = .ok (e, { s with definitions := s.definitions ++ [e] })) ∧
    (∀ (src : List Char) (toks : List Tok) (fuel : Nat) (e : PExpr),
      Parse src toks false fuel = .ok (.ok e) →
      ∃ body s', (parseTopBody fuel false).run (initState src toks) = .ok (body, s') ∧
        e = F.Program body s'.definitions 0 s'.pos ∧
        defsOf e = s'.definitions) ∧
    (match Parse "class a { } site { } type X = Integer".toList c9toks false 80 with
      | .ok (.ok e) => (defsOf e).map defTag
      | _ => []) = ["class a", "site", "typealias X"] := by
  refine ⟨?_, ?_, rfl⟩
  · intro e s hdef
    unfold addDefinition
    simp only [hdef, ite_true, if_true, pm_bind_run, pm_modify_run, pm_pure_run]
  · intro src toks fuel e h
    unfold Parse parseTopExpression at h
    cases hb : (parseTopBody fuel false).run (initState src toks) with
    | error pv =>
        rw [hb] at h
        cases pv <;> simp at h
    | ok p =>
        obtain ⟨body, s'⟩ := p
        rw [hb] at h
        simp only [Bool.false_eq_true, if_false, ite_false] at h
        cases h
        exact ⟨body, s', rfl, rfl, rfl⟩

/-- Witness for C9: registering a concrete site definition appends it and
returns it. -/
theorem claim9_witness :
    (addDefinition (F.Site (F.Block [] 21 0) 12 13)).run (initState [] []) =
      .ok (F.Site (F.Block [] 21 0) 12 13,
        { initState [] [] with definitions := [F.Site (F.Block [] 21 0) 12 13] }) :=
  claim9_definition_registration.1 (F.Site (F.Block [] 21 0) 12 13) (initState [] []) rfl

/-- The token stream of the source `notice 42`. -/
def notice42Toks : List Tok :=
  [⟨.TOKEN_IDENTIFIER, .str "notice", 0, 6⟩, ⟨.TOKEN_INTEGER, .int 42 10, 7, 9⟩]

/-- The AST produced for `notice 42` in non-single-expression mode: the
statement-call promotion applies. -/
def notice42Program : PExpr :=
  .mk (.Program
    (.mk (.BlockExpression
      [.mk (.CallNamedFunctionExpression false
        (.mk (.QualifiedName "notice") 0 7)
        [.mk (.LiteralInteger 10 42) 7 2] Option.none) 0 9]) 7 2) []) 0 9

/-- Claim C10: in single-expression mode `parse` reads exactly one
relationship-level expression and requires the end token to follow
immediately — any other token makes the parse fail with
`PARSE_EXPECTED_TOKEN`; statement-call promotion is not applied (`notice 42`
fails in single-expression mode with `PARSE_EXPECTED_TOKEN`, while the same
tokens in block mode are promoted to a named-function call). -/
theorem claim10_single_expression_mode :
    (∀ (m : Nat) (s : PState) (e : PExpr) (s3 : PState),
      s.currentToken ≠ .TOKEN_END →
      (run m Fn.relationship).run { s with pos := skipWhiteStart s } = .ok (.expr e, s3) →
      s3.currentToken ≠ .TOKEN_END →
      (run (m+1) (Fn.parse .TOKEN_END true)).run s =
        .error (.reported .PARSE_EXPECTED_TOKEN)) ∧
    Parse "notice 42".toList notice42Toks true 50 =
      .ok (.error .PARSE_EXPECTED_TOKEN) ∧
    Parse "notice 42".toList notice42Toks false 50 = .ok (.ok notice42Program) := by
  refine ⟨?_, rfl, rfl⟩
  intro m s e s3 h0 h1 h2
  simp only [run]
  simp only [pm_bind_run, pm_get_run, pm_pure_run, SetPos_run, ite_true, if_true]
  rw [if_neg h0]
  simp only [pm_bind_run, h1, asExpr, pm_pure_run]
  rw [assertToken_run_neg .TOKEN_END s3 h2]

/-- Witness for C2: a literal-integer primary has shape `error`, and an
access expression on a non-`Resource` operand has shape `override`. -/
theorem claim2_witness :
    resourceShape (.mk (.LiteralInteger 10 5) 0 1) = "error" ∧
    resourceShape (.mk (.AccessExpression (.mk (.LiteralInteger 10 5) 0 1) []) 0 3) =
      "override" :=
  ⟨claim2_resource_shape.2.2.2.2.1 (.mk (.LiteralInteger 10 5) 0 1) rfl rfl rfl,
   claim2_resource_shape.2.2.2.1 (.mk (.LiteralInteger 10 5) 0 1) [] 0 3 trivial⟩

/-- The parser state at entry to `resourceExpression` for the source
`foo { 7 }` (current token `{`). -/
def c3state : PState :=
  { src := "foo \x7b 7 \x7d".toList,
    toks := [⟨.TOKEN_IDENTIFIER, .str "foo", 0, 3⟩, ⟨.TOKEN_LC, .none, 4, 5⟩,
             ⟨.TOKEN_INTEGER, .int 7 10, 6, 7⟩, ⟨.TOKEN_RC, .none, 8, 9⟩],
    currentToken := .TOKEN_LC, tokenValue := .none, tokenStartPos := 4,
    radix := 10, pos := 5, definitions := [], nameStack := [] }

/-- Witness for C3 at `foo { 7 }`: `foo` is not a statement call, so the
titleless resource body fails with `PARSE_RESOURCE_WITHOUT_TITLE`. -/
theorem claim3_witness :
    (run 31 (Fn.resourceExpression 0 (F.QualifiedName "foo" 0 3) .REGULAR)).run c3state =
      .error (.reported .PARSE_RESOURCE_WITHOUT_TITLE) :=
  claim3_resource_without_title.2 30 c3state 0 "foo" 0 3 .REGULAR
    (.mk (.LiteralInteger 10 7) 6 1) (nextTokState (nextTokState c3state))
    rfl (by decide) rfl (by decide)

/-- Witness for C5: the non-single-expression parse of `9` returns a
`Program` node. -/
theorem claim5_witness :
    isProgram (.mk (.Program
      (.mk (.BlockExpression [.mk (.LiteralInteger 10 9) 0 1]) 1 0) []) 0 1) = true :=
  claim5_program_wrapping.1 "9".toList [⟨.TOKEN_INTEGER, .int 9 10, 0, 1⟩] 50
    (.mk (.Program (.mk (.BlockExpression [.mk (.LiteralInteger 10 9) 0 1]) 1 0) []) 0 1)
    rfl

/-- The parser state at entry to `unaryExpression` for the source `-5`
(current token `-`). -/
def c6s : PState := nextTokState (initState "-5".toList negFiveToks)

/-- The state of C6's witness after the integer token's value has been
negated in place. -/
def c6sNeg : PState :=
  { nextTokState c6s with currentToken := .TOKEN_INTEGER, tokenValue := .int (-5) 10 }

/-- The final state of C6's witness. -/
def c6s2 : PState := nextTokState c6sNeg

/-- Witness for C6 at `-5`: the literal is negated in place and returned
with the minus sign absorbed into its span. -/
theorem claim6_witness :
    (run 19 Fn.unaryExpression).run c6s =
      .ok (.expr ((PExpr.mk (.LiteralInteger 10 (-5)) 1 1).updateOffsetAndLength
          c6s.tokenStartPos (c6s2.pos - c6s.tokenStartPos)), c6s2) :=
  claim6_unary_minus.1 18 c6s 5 10 (.mk (.LiteralInteger 10 (-5)) 1 1) c6s2
    rfl (by decide) rfl rfl rfl

/-- The parser state at entry to `parse` for the source `notice 42`
(current token the identifier `notice`). -/
def c10s : PState := nextTokState (initState "notice 42".toList notice42Toks)

/-- The state of C10's witness after the single relationship expression. -/
def c10s3 : PState := nextTokState { c10s with pos := skipWhiteStart c10s }

/-- Witness for C10 at `notice 42` in single-expression mode: after the one
relationship expression (`notice` as a bare name) the next token is not the
end token, so the parse fails with `PARSE_EXPECTED_TOKEN`. -/
theorem claim10_witness :
    (run 31 (Fn.parse .TOKEN_END true)).run c10s =
      .error (.reported .PARSE_EXPECTED_TOKEN) :=
  claim10_single_expression_mode.1 30 c10s (.mk (.QualifiedName "notice") 0 7) c10s3
    (by decide) rfl (by decide)

end PuppetParser
